import Mathlib

/-!
Verification of the slumber template engine specification.

The repository provides `src/template.rs` (data declarations, recursion
limit, `Template::raw`) and `src/template/error.rs` (the error taxonomy).
The `parse`, `render` and `prompt` submodules of `template` are not part
of the provided sources, so their behavior is modelled from the
specification (each such definition is marked `Modelled from the spec:`).

Strings are modelled by Lean `String` (a wrapper around `List Char`);
byte buffers are modelled as strings (the valid-UTF-8 case), with
non-UTF-8 environment variable content modelled separately through
`VarError.notUnicode`, mirroring `std::env::VarError`.
-/

namespace Slumber

/-- Maximum number of layers of nested templates (src/template.rs line 24). -/
def RECURSION_LIMIT : Nat := 10

/-- A parsed template key (src/template.rs `TemplateKey`): a plain profile
field, a chain reference, or a process environment variable. Identifiers
are modelled as the underlying strings; validity is a separate predicate. -/
inductive TemplateKey where
  | field (id : String)
  | chain (id : String)
  | environment (id : String)
deriving DecidableEq

/-- A chunk of a parsed template (the `TemplateInputChunk` of the missing
parse module, as described by the `Template` declaration in
src/template.rs): raw presentation text (escape sequences already
resolved) or a parsed key. -/
inductive TemplateInputChunk where
  | raw (text : String)
  | key (k : TemplateKey)
deriving DecidableEq

/-- A parsed template (src/template.rs `Template`): pre-parsed chunks.
The original source string is not stored. -/
structure Template where
  chunks : List TemplateInputChunk
deriving DecidableEq

/-- Create a template from a raw string without parsing it
(src/template.rs `Template::raw`): empty input gives no chunks, anything
else is a single raw chunk. -/
def Template.raw (template : String) : Template :=
  if template.isEmpty then ⟨[]⟩ else ⟨[TemplateInputChunk.raw template]⟩

/-! ## Identifier and parser

Modelled from the spec: the parse module is not in the provided sources.
Grammar (spec section 6): a key is delimited by two opening and two
closing braces, its body is an identifier, or an identifier qualified by
the chain or env namespace; identifiers are nonempty runs of ASCII
letters, digits, underscore and hyphen. Outside keys text is literal: a
backslash immediately followed by a double opening brace escapes the
opener; a backslash before any other character is kept verbatim,
including the backslash itself. Consecutive literal characters coalesce
into one raw chunk; empty input yields an empty chunk list. -/

/-- Modelled from the spec: allowed identifier characters
(ASCII letters, digits, underscore, hyphen). -/
def isIdentChar (c : Char) : Bool :=
  c.isAlphanum || c = '_' || c = '-'

/-- Modelled from the spec: characters allowed inside a key body
(identifier characters plus the namespace dot). -/
def isKeyBodyChar (c : Char) : Bool :=
  isIdentChar c || c = '.'

/-- Modelled from the spec: a valid identifier is a nonempty run of
allowed characters. -/
def isValidIdentChars (l : List Char) : Bool :=
  !l.isEmpty && l.all isIdentChar

/-- The chain namespace qualifier (src/template.rs refers to it as the
constant used by the key display form). -/
def chainsDot : List Char := ['c', 'h', 'a', 'i', 'n', 's', '.']

/-- The env namespace qualifier. -/
def envDot : List Char := ['e', 'n', 'v', '.']

/-- Modelled from the spec: interpret the text between the braces of a
key as a field, chain, or environment key; reject invalid identifiers. -/
def parseKeyBody (l : List Char) : Option TemplateKey :=
  if chainsDot.isPrefixOf l then
    let rest := l.drop chainsDot.length
    if isValidIdentChars rest then some (TemplateKey.chain (String.mk rest)) else none
  else if envDot.isPrefixOf l then
    let rest := l.drop envDot.length
    if isValidIdentChars rest then some (TemplateKey.environment (String.mk rest)) else none
  else if isValidIdentChars l then some (TemplateKey.field (String.mk l)) else none

/-- An atomic lexeme: one literal character or one parsed key. Raw
chunks are maximal runs of literal characters (see `coalesce`). -/
inductive Piece where
  | pc (c : Char)
  | pk (k : TemplateKey)
deriving DecidableEq

/-- Modelled from the spec: the lexer, written as one structural pass.
The first argument is `none` outside a key and `some acc` inside a key,
where `acc` is the reversed body scanned so far. Produces the list of
atomic pieces of the source, or fails on an unterminated or malformed
key. -/
def lexGo : Option (List Char) → List Char → Option (List Piece)
  | some _, [] => none
  | some acc, c :: rest =>
    if c = '}' then
      match rest with
      | [] => none
      | c2 :: rest2 =>
        if c2 = '}' then
          match parseKeyBody acc.reverse with
          | some k => (lexGo none rest2).map (fun ps => Piece.pk k :: ps)
          | none => none
        else none
    else if isKeyBodyChar c then lexGo (some (c :: acc)) rest
    else none
  | none, [] => some []
  | none, [c] => some [Piece.pc c]
  | none, a :: b :: rest =>
    if a = '\\' then
      match rest with
      | [] =>
        -- two characters, the first a backslash: kept verbatim
        some [Piece.pc '\\', Piece.pc b]
      | c3 :: rest3 =>
        if b = '{' ∧ c3 = '{' then
          -- escaped opener: emit the braces without the backslash
          (lexGo none rest3).map (fun ps => Piece.pc '{' :: Piece.pc '{' :: ps)
        else
          (lexGo none (c3 :: rest3)).map (fun ps => Piece.pc '\\' :: Piece.pc b :: ps)
    else if a = '{' ∧ b = '{' then lexGo (some []) rest
    else
      (lexGo none (b :: rest)).map (fun ps => Piece.pc a :: ps)

/-- Modelled from the spec: lex a source character list. -/
def lex (l : List Char) : Option (List Piece) :=
  lexGo none l

/-- Prepend a literal character onto a chunk list, merging it into a
leading raw chunk when one is present (spec output contract: consecutive
literal characters coalesce into one raw chunk). -/
def consRaw (c : Char) : List TemplateInputChunk → List TemplateInputChunk
  | TemplateInputChunk.raw s :: rest =>
      TemplateInputChunk.raw (String.mk (c :: s.data)) :: rest
  | [] => [TemplateInputChunk.raw (String.mk [c])]
  | TemplateInputChunk.key k :: rest =>
      TemplateInputChunk.raw (String.mk [c]) :: TemplateInputChunk.key k :: rest

/-- Group the lexed pieces into chunks: maximal literal runs become one
raw chunk each, keys become key chunks. -/
def coalesce : List Piece → List TemplateInputChunk
  | [] => []
  | Piece.pk k :: rest => TemplateInputChunk.key k :: coalesce rest
  | Piece.pc c :: rest => consRaw c (coalesce rest)

/-- Modelled from the spec: parse a character list into chunks. -/
def parseChars (l : List Char) : Option (List TemplateInputChunk) :=
  (lex l).map coalesce

/-- Modelled from the spec: parse a source string into a template. -/
def Template.parse (s : String) : Option Template :=
  (parseChars s.data).map Template.mk

/-! ## Serialization (the Display implementation)

Modelled from the spec: the serialized form of a template is the
concatenation of its chunks; raw segments emit their text with every
double-opening-brace occurrence escaped by a backslash, key segments
emit their canonical bracketed form. -/

/-- Modelled from the spec: escape a raw segment by inserting a
backslash before each (leftmost, non-overlapping) double opening
brace. -/
def escapeRaw : List Char → List Char
  | [] => []
  | [c] => [c]
  | a :: b :: rest =>
    if a = '{' ∧ b = '{' then '\\' :: '{' :: '{' :: escapeRaw rest
    else a :: escapeRaw (b :: rest)

/-- The canonical body of a key (the Display form in src/template.rs:
fields print bare, chains and environment keys print qualified). -/
def keyBodyChars : TemplateKey → List Char
  | TemplateKey.field id => id.data
  | TemplateKey.chain id => chainsDot ++ id.data
  | TemplateKey.environment id => envDot ++ id.data

/-- The canonical serialized form of a key. -/
def serializeKey (k : TemplateKey) : List Char :=
  '{' :: '{' :: (keyBodyChars k ++ ['}', '}'])

/-- Modelled from the spec: serialize a chunk list back to source
characters. -/
def serializeChunks : List TemplateInputChunk → List Char
  | [] => []
  | TemplateInputChunk.raw s :: rest => escapeRaw s.data ++ serializeChunks rest
  | TemplateInputChunk.key k :: rest => serializeKey k ++ serializeChunks rest

/-- The Display form of a template: its canonical source string. -/
def Template.display (t : Template) : String :=
  String.mk (serializeChunks t.chunks)

/-! ## Parser equations and invariants -/

theorem lexGo_none_nil : lexGo none [] = some [] := rfl

theorem lexGo_none_single (c : Char) : lexGo none [c] = some [Piece.pc c] := rfl

theorem lexGo_esc_end (b : Char) :
    lexGo none ['\\', b] = some [Piece.pc '\\', Piece.pc b] := rfl

theorem lexGo_esc_opener (r : List Char) :
    lexGo none ('\\' :: '{' :: '{' :: r) =
      (lexGo none r).map (fun ps => Piece.pc '{' :: Piece.pc '{' :: ps) := rfl

theorem lexGo_esc_pair (b c3 : Char) (r : List Char) (h : ¬(b = '{' ∧ c3 = '{')) :
    lexGo none ('\\' :: b :: c3 :: r) =
      (lexGo none (c3 :: r)).map (fun ps => Piece.pc '\\' :: Piece.pc b :: ps) := by
  rw [lexGo]
  simp [h]

theorem lexGo_opener (r : List Char) :
    lexGo none ('{' :: '{' :: r) = lexGo (some []) r := by
  rw [lexGo.eq_def]
  simp

theorem lexGo_generic (a b : Char) (r : List Char)
    (ha : a ≠ '\\') (hab : ¬(a = '{' ∧ b = '{')) :
    lexGo none (a :: b :: r) =
      (lexGo none (b :: r)).map (fun ps => Piece.pc a :: ps) := by
  rw [lexGo.eq_def]
  simp [ha, hab]

theorem lexGo_key_nil (acc : List Char) : lexGo (some acc) [] = none := rfl

theorem lexGo_key_close (acc : List Char) (r : List Char) :
    lexGo (some acc) ('}' :: '}' :: r) =
      (match parseKeyBody acc.reverse with
       | some k => (lexGo none r).map (fun ps => Piece.pk k :: ps)
       | none => none) := rfl

theorem lexGo_key_step (acc : List Char) (c : Char) (r : List Char)
    (hc : c ≠ '}') (hk : isKeyBodyChar c = true) :
    lexGo (some acc) (c :: r) = lexGo (some (c :: acc)) r := by
  rw [lexGo.eq_def]
  simp [hc, hk]

theorem escapeRaw_nil : escapeRaw [] = [] := rfl

theorem escapeRaw_single (c : Char) : escapeRaw [c] = [c] := rfl

theorem escapeRaw_opener (r : List Char) :
    escapeRaw ('{' :: '{' :: r) = '\\' :: '{' :: '{' :: escapeRaw r := rfl

theorem escapeRaw_cons (a b : Char) (r : List Char) (h : ¬(a = '{' ∧ b = '{')) :
    escapeRaw (a :: b :: r) = a :: escapeRaw (b :: r) := by
  rw [escapeRaw]
  simp [h]

theorem escapeRaw_ne_nil (a : Char) (l : List Char) : escapeRaw (a :: l) ≠ [] := by
  match l with
  | [] => rw [escapeRaw]; simp
  | b :: r =>
    by_cases h : a = '{' ∧ b = '{'
    · obtain ⟨h1, h2⟩ := h; subst h1; subst h2; simp [escapeRaw_opener]
    · simp [escapeRaw_cons a b r h]

/-- The first character of an escaped raw segment: the segment's own
first character, or the inserted backslash. -/
theorem escapeRaw_head (a : Char) (l : List Char) (h : a ≠ '{') :
    ∃ r, escapeRaw (a :: l) = a :: r := by
  match l with
  | [] => exact ⟨[], rfl⟩
  | b :: r =>
    have hab : ¬(a = '{' ∧ b = '{') := fun hc => h hc.1
    exact ⟨escapeRaw (b :: r), escapeRaw_cons a b r hab⟩

/-- Validity of the identifiers stored in a key. -/
def validKey : TemplateKey → Bool
  | TemplateKey.field id => isValidIdentChars id.data
  | TemplateKey.chain id => isValidIdentChars id.data
  | TemplateKey.environment id => isValidIdentChars id.data

theorem parseKeyBody_valid (l : List Char) (k : TemplateKey)
    (h : parseKeyBody l = some k) : validKey k = true := by
  simp only [parseKeyBody] at h
  split_ifs at h <;>
    first
      | exact Option.noConfusion h
      | (obtain rfl := Option.some.inj h; simp_all [validKey])

/-! ## Round-trip safety predicate

Serializing a parsed template escapes double opening braces in raw
segments but keeps backslashes as they are (the grammar keeps a
backslash before anything except an opener verbatim). Re-lexing the
serialized text therefore reproduces the raw segment only when the
segment's own backslashes cannot combine with a following brace pair.
`rawSafe l ob` scans `l` unit-by-unit exactly as the re-lexer will
consume the escaped text; `ob` records whether a key (and so a double
opening brace) immediately follows the segment in the serialized
form. -/

def rawSafe : List Char → Bool → Bool
  | [], _ => true
  | [c], ob => !ob || !(c = '\\' || c = '{')
  | a :: b :: l, ob =>
    if a = '\\' then
      if b = '{' then
        match l with
        | [] => !ob
        | c3 :: _ => if c3 = '{' then false else rawSafe l ob
      else rawSafe l ob
    else if a = '{' ∧ b = '{' then rawSafe l ob
    else rawSafe (b :: l) ob

theorem rawSafe_nil (ob : Bool) : rawSafe [] ob = true := rfl

theorem rawSafe_single (c : Char) (ob : Bool) :
    rawSafe [c] ob = (!ob || !(c = '\\' || c = '{')) := rfl

theorem rawSafe_esc_opener_nil (ob : Bool) : rawSafe ['\\', '{'] ob = !ob := by
  rw [rawSafe.eq_def]
  simp

theorem rawSafe_esc_opener_bad (c3 : Char) (l : List Char) (ob : Bool)
    (h : c3 = '{') : rawSafe ('\\' :: '{' :: c3 :: l) ob = false := by
  rw [rawSafe.eq_def]
  simp [h]

theorem rawSafe_esc_opener_cons (c3 : Char) (l : List Char) (ob : Bool)
    (h : c3 ≠ '{') : rawSafe ('\\' :: '{' :: c3 :: l) ob = rawSafe (c3 :: l) ob := by
  rw [rawSafe.eq_def]
  simp [h]

theorem rawSafe_esc (b : Char) (l : List Char) (ob : Bool) (h : b ≠ '{') :
    rawSafe ('\\' :: b :: l) ob = rawSafe l ob := by
  rw [rawSafe.eq_def]
  simp [h]

theorem rawSafe_opener (l : List Char) (ob : Bool) :
    rawSafe ('{' :: '{' :: l) ob = rawSafe l ob := by
  rw [rawSafe.eq_def]
  simp

theorem rawSafe_generic (a b : Char) (l : List Char) (ob : Bool)
    (ha : a ≠ '\\') (hab : ¬(a = '{' ∧ b = '{')) :
    rawSafe (a :: b :: l) ob = rawSafe (b :: l) ob := by
  rw [rawSafe.eq_def]
  simp [ha, hab]

theorem escapeRaw_cons_ne (b : Char) (l : List Char) (hb : b ≠ '{') :
    escapeRaw (b :: l) = b :: escapeRaw l := by
  match l with
  | [] => rfl
  | c :: r => exact escapeRaw_cons b c r (fun hc => hb hc.1)

/-- Central lemma for the round-trip property: re-lexing an escaped
safe raw segment, followed by nothing or by a serialized key opener,
reproduces exactly the segment's characters as literal pieces and then
continues with the rest. -/
theorem lexGo_escapeRaw :
    ∀ (n : Nat) (l T : List Char) (ps : List Piece) (ob : Bool),
      l.length ≤ n →
      rawSafe l ob = true →
      lexGo none T = some ps →
      (if ob then ∃ T2, T = '{' :: '{' :: T2 else T = []) →
      lexGo none (escapeRaw l ++ T) = some (l.map Piece.pc ++ ps) := by
  intro n
  induction n with
  | zero =>
    intro l T ps ob hlen _ hT _
    have : l = [] := List.length_eq_zero.mp (Nat.le_zero.mp hlen)
    subst this
    simpa [escapeRaw] using hT
  | succ n ih =>
    intro l T ps ob hlen hsafe hT hTshape
    match l with
    | [] => simpa [escapeRaw] using hT
    | [c] =>
      rw [escapeRaw_single]
      cases ob with
      | false =>
        simp at hTshape
        subst hTshape
        have : ps = [] := by simpa [lexGo_none_nil] using hT.symm
        subst this
        simp [lexGo_none_single]
      | true =>
        simp [rawSafe_single] at hsafe
        obtain ⟨T2, hT2⟩ := by simpa using hTshape
        subst hT2
        simp only [List.singleton_append]
        rw [lexGo_generic c '{' ('{' :: T2) hsafe.1 (fun hc => hsafe.2 hc.1)]
        rw [hT]
        simp
    | a :: b :: l2 =>
      by_cases ha : a = '\\'
      · subst ha
        by_cases hb : b = '{'
        · subst hb
          match l2 with
          | [] =>
            rw [rawSafe_esc_opener_nil] at hsafe
            have hob : ob = false := by cases ob <;> simp_all
            subst hob
            simp at hTshape
            subst hTshape
            have : ps = [] := by simpa [lexGo_none_nil] using hT.symm
            subst this
            have hesc : escapeRaw ['\\', '{'] = ['\\', '{'] := rfl
            rw [hesc]
            simp [lexGo_esc_end]
          | c3 :: l3 =>
            by_cases hc3 : c3 = '{'
            · rw [rawSafe_esc_opener_bad c3 l3 ob hc3] at hsafe
              exact absurd hsafe (by simp)
            · rw [rawSafe_esc_opener_cons c3 l3 ob hc3] at hsafe
              have hesc1 : escapeRaw ('\\' :: '{' :: c3 :: l3) =
                  '\\' :: '{' :: escapeRaw (c3 :: l3) := by
                rw [escapeRaw_cons '\\' '{' (c3 :: l3) (by simp)]
                rw [escapeRaw_cons '{' c3 l3 (fun h => hc3 h.2)]
              obtain ⟨r2, hr2⟩ := escapeRaw_head c3 l3 hc3
              have hih := ih (c3 :: l3) T ps ob (by simp at hlen ⊢; omega) hsafe hT hTshape
              rw [hesc1]
              have : ('\\' :: '{' :: escapeRaw (c3 :: l3)) ++ T =
                  '\\' :: '{' :: c3 :: (r2 ++ T) := by simp [hr2]
              rw [this]
              rw [lexGo_esc_pair '{' c3 (r2 ++ T) (fun h => hc3 h.2)]
              rw [show (c3 :: (r2 ++ T) = escapeRaw (c3 :: l3) ++ T) from by simp [hr2]]
              rw [hih]
              simp
        · rw [rawSafe_esc b l2 ob hb] at hsafe
          have hesc1 : escapeRaw ('\\' :: b :: l2) = '\\' :: b :: escapeRaw l2 := by
            rw [escapeRaw_cons '\\' b l2 (by simp)]
            rw [escapeRaw_cons_ne b l2 hb]
          rw [hesc1]
          have hih := ih l2 T ps ob (by simp at hlen ⊢; omega) hsafe hT hTshape
          match hX : escapeRaw l2 ++ T with
          | [] =>
            rw [hX] at hih
            have : l2.map Piece.pc ++ ps = [] := by
              have h0 := hih
              rw [lexGo_none_nil] at h0
              exact (Option.some.inj h0).symm
            rw [show ('\\' :: b :: escapeRaw l2) ++ T = '\\' :: b :: (escapeRaw l2 ++ T) from by simp]
            rw [hX]
            rw [lexGo_esc_end]
            simp [this]
          | c3 :: r3 =>
            rw [hX] at hih
            rw [show ('\\' :: b :: escapeRaw l2) ++ T = '\\' :: b :: (escapeRaw l2 ++ T) from by simp]
            rw [hX]
            rw [lexGo_esc_pair b c3 r3 (fun h => hb h.1)]
            rw [hih]
            simp
      · by_cases hab : a = '{' ∧ b = '{'
        · obtain ⟨ha1, hb1⟩ := hab
          subst ha1; subst hb1
          rw [rawSafe_opener] at hsafe
          rw [escapeRaw_opener]
          have hih := ih l2 T ps ob (by simp at hlen ⊢; omega) hsafe hT hTshape
          rw [show ('\\' :: '{' :: '{' :: escapeRaw l2) ++ T =
              '\\' :: '{' :: '{' :: (escapeRaw l2 ++ T) from by simp]
          rw [lexGo_esc_opener]
          rw [hih]
          simp
        · rw [rawSafe_generic a b l2 ob ha hab] at hsafe
          rw [escapeRaw_cons a b l2 hab]
          have hih := ih (b :: l2) T ps ob (by simp at hlen ⊢; omega) hsafe hT hTshape
          have hbl : escapeRaw (b :: l2) ≠ [] := escapeRaw_ne_nil b l2
          match hX : escapeRaw (b :: l2) with
          | [] => exact absurd hX hbl
          | c2 :: r2 =>
            have hc2 : a = '{' → c2 ≠ '{' := by
              intro ha2 hcc
              have hbne : b ≠ '{' := fun hb2 => hab ⟨ha2, hb2⟩
              obtain ⟨r', hr'⟩ := escapeRaw_head b l2 hbne
              rw [hr'] at hX
              exact hbne ((List.cons.inj hX).1.trans hcc)
            simp only [List.cons_append]
            rw [lexGo_generic a c2 (r2 ++ T) ha (fun h => hc2 h.1 h.2)]
            rw [show (c2 :: (r2 ++ T)) = escapeRaw (b :: l2) ++ T from by simp [hX]]
            rw [hih]
            simp

/-! ## Serialized keys re-lex to themselves -/

theorem isKeyBodyChar_ne_close (c : Char) (h : isKeyBodyChar c = true) : c ≠ '}' := by
  intro hc
  subst hc
  simp [isKeyBodyChar, isIdentChar, Char.isAlphanum, Char.isAlpha, Char.isDigit,
    Char.isUpper, Char.isLower] at h

theorem isIdentChar_no_dot (c : Char) (h : isIdentChar c = true) : c ≠ '.' := by
  intro hc
  subst hc
  simp [isIdentChar, Char.isAlphanum, Char.isAlpha, Char.isDigit,
    Char.isUpper, Char.isLower] at h

/-- Scanning a well-formed key body inside key mode consumes the body
and closes on the double closing brace. -/
theorem lexGo_key_scan :
    ∀ (body acc T : List Char), body.all isKeyBodyChar = true →
      lexGo (some acc) (body ++ '}' :: '}' :: T) =
        (match parseKeyBody (acc.reverse ++ body) with
         | some k => (lexGo none T).map (fun ps => Piece.pk k :: ps)
         | none => none) := by
  intro body
  induction body with
  | nil =>
    intro acc T _
    simpa using lexGo_key_close acc T
  | cons c body2 ih =>
    intro acc T hall
    simp only [List.all_cons, Bool.and_eq_true] at hall
    rw [List.cons_append]
    rw [lexGo_key_step acc c _ (isKeyBodyChar_ne_close c hall.1) hall.1]
    rw [ih (c :: acc) T hall.2]
    simp

/-- A valid identifier contains no dot, so the namespace qualifiers are
never prefixes of one. -/
theorem not_prefix_of_ident (pre l : List Char) (hd : '.' ∈ pre)
    (hv : isValidIdentChars l = true) : pre.isPrefixOf l = false := by
  by_contra h
  have hpre : pre <+: l := List.isPrefixOf_iff_prefix.mp (by
    cases hp : pre.isPrefixOf l
    · exact absurd hp h
    · rfl)
  obtain ⟨t, ht⟩ := hpre
  have hmem : '.' ∈ l := by rw [← ht]; exact List.mem_append_left t hd
  simp only [isValidIdentChars, Bool.and_eq_true, List.all_eq_true] at hv
  exact isIdentChar_no_dot '.' (hv.2 '.' hmem) rfl

theorem parseKeyBody_keyBodyChars (k : TemplateKey) (hk : validKey k = true) :
    parseKeyBody (keyBodyChars k) = some k := by
  match k with
  | TemplateKey.field id =>
    simp only [validKey] at hk
    simp only [keyBodyChars, parseKeyBody]
    rw [not_prefix_of_ident chainsDot id.data (by simp [chainsDot]) hk]
    rw [not_prefix_of_ident envDot id.data (by simp [envDot]) hk]
    simp [hk]
  | TemplateKey.chain id =>
    simp only [validKey] at hk
    simp only [keyBodyChars, parseKeyBody]
    rw [List.isPrefixOf_iff_prefix.mpr (List.prefix_append chainsDot id.data)]
    simp only [if_true]
    rw [List.drop_left]
    simp [hk]
  | TemplateKey.environment id =>
    simp only [validKey] at hk
    simp only [keyBodyChars, parseKeyBody]
    have hc : chainsDot.isPrefixOf (envDot ++ id.data) = false := by
      simp [chainsDot, envDot, List.isPrefixOf]
    rw [hc]
    simp only [Bool.false_eq_true, if_false]
    rw [List.isPrefixOf_iff_prefix.mpr (List.prefix_append envDot id.data)]
    simp only [if_true]
    rw [List.drop_left]
    simp [hk]

theorem keyBodyChars_all (k : TemplateKey) (hk : validKey k = true) :
    (keyBodyChars k).all isKeyBodyChar = true := by
  have hident : ∀ (id : String), isValidIdentChars id.data = true →
      id.data.all isKeyBodyChar = true := by
    intro id hv
    simp only [isValidIdentChars, Bool.and_eq_true, List.all_eq_true] at hv
    rw [List.all_eq_true]
    intro c hc
    simp [isKeyBodyChar, hv.2 c hc]
  match k with
  | TemplateKey.field id =>
    simp only [validKey] at hk
    simpa [keyBodyChars] using hident id hk
  | TemplateKey.chain id =>
    simp only [validKey] at hk
    simp only [keyBodyChars, List.all_append, Bool.and_eq_true]
    exact ⟨by simp [chainsDot, isKeyBodyChar, isIdentChar], hident id hk⟩
  | TemplateKey.environment id =>
    simp only [validKey] at hk
    simp only [keyBodyChars, List.all_append, Bool.and_eq_true]
    exact ⟨by simp [envDot, isKeyBodyChar, isIdentChar], hident id hk⟩

/-- Re-lexing the canonical serialization of a valid key consumes
exactly the key and continues. -/
theorem lexGo_serializeKey (k : TemplateKey) (T : List Char) (ps : List Piece)
    (hk : validKey k = true) (hT : lexGo none T = some ps) :
    lexGo none (serializeKey k ++ T) = some (Piece.pk k :: ps) := by
  simp only [serializeKey, List.cons_append]
  rw [lexGo_opener]
  rw [show ((keyBodyChars k ++ ['}', '}']) ++ T = keyBodyChars k ++ '}' :: '}' :: T) from by simp]
  rw [lexGo_key_scan (keyBodyChars k) [] T (keyBodyChars_all k hk)]
  simp only [List.reverse_nil, List.nil_append]
  rw [parseKeyBody_keyBodyChars k hk]
  rw [hT]
  simp

/-! ## Structure of parsed chunk lists -/

def isRawChunk : TemplateInputChunk → Bool
  | TemplateInputChunk.raw _ => true
  | TemplateInputChunk.key _ => false

/-- No two adjacent raw chunks (spec output contract: consecutive
literal characters are coalesced into one raw chunk). -/
def NotTwoRaw (c1 c2 : TemplateInputChunk) : Prop :=
  ¬(isRawChunk c1 = true ∧ isRawChunk c2 = true)

/-- Expand a chunk list back into its atomic pieces. -/
def flattenPieces : List TemplateInputChunk → List Piece
  | [] => []
  | TemplateInputChunk.raw s :: rest => s.data.map Piece.pc ++ flattenPieces rest
  | TemplateInputChunk.key k :: rest => Piece.pk k :: flattenPieces rest

theorem consRaw_nil (c : Char) :
    consRaw c [] = [TemplateInputChunk.raw (String.mk [c])] := rfl

theorem consRaw_raw (c : Char) (s : String) (out : List TemplateInputChunk) :
    consRaw c (TemplateInputChunk.raw s :: out) =
      TemplateInputChunk.raw (String.mk (c :: s.data)) :: out := rfl

theorem consRaw_key (c : Char) (k : TemplateKey) (out : List TemplateInputChunk) :
    consRaw c (TemplateInputChunk.key k :: out) =
      TemplateInputChunk.raw (String.mk [c]) :: TemplateInputChunk.key k :: out := rfl

theorem coalesce_raw_ne_nil :
    ∀ (ps : List Piece) (s : String),
      TemplateInputChunk.raw s ∈ coalesce ps → s.data ≠ [] := by
  intro ps
  induction ps with
  | nil => intro s h; simp [coalesce] at h
  | cons p rest ih =>
    intro s h
    match p with
    | Piece.pk k =>
      simp only [coalesce, List.mem_cons] at h
      rcases h with h | h
      · exact absurd h (by simp)
      · exact ih s h
    | Piece.pc c =>
      simp only [coalesce] at h
      match hc : coalesce rest with
      | [] =>
        rw [hc, consRaw_nil] at h
        simp only [List.mem_singleton] at h
        obtain rfl := TemplateInputChunk.raw.inj h
        simp
      | TemplateInputChunk.raw s2 :: out =>
        rw [hc, consRaw_raw] at h
        simp only [List.mem_cons] at h
        rcases h with h | h
        · obtain rfl := TemplateInputChunk.raw.inj h
          simp
        · exact ih s (by rw [hc]; exact List.mem_cons_of_mem _ h)
      | TemplateInputChunk.key k2 :: out =>
        rw [hc, consRaw_key] at h
        simp only [List.mem_cons] at h
        rcases h with h | h | h
        · obtain rfl := TemplateInputChunk.raw.inj h
          simp
        · exact absurd h (by simp)
        · exact ih s (by rw [hc]; exact List.mem_cons_of_mem _ h)

theorem coalesce_chain' : ∀ (ps : List Piece), List.Chain' NotTwoRaw (coalesce ps) := by
  intro ps
  induction ps with
  | nil => simp [coalesce]
  | cons p rest ih =>
    match p with
    | Piece.pk k =>
      simp only [coalesce]
      rw [List.chain'_cons']
      refine ⟨?_, ih⟩
      intro y _
      simp [NotTwoRaw, isRawChunk]
    | Piece.pc c =>
      simp only [coalesce]
      match hc : coalesce rest with
      | [] => simp [consRaw_nil]
      | TemplateInputChunk.raw s2 :: out =>
        rw [consRaw_raw]
        rw [hc] at ih
        rw [List.chain'_cons'] at ih ⊢
        refine ⟨?_, ih.2⟩
        intro y hy
        have := ih.1 y hy
        simpa [NotTwoRaw, isRawChunk] using this
      | TemplateInputChunk.key k2 :: out =>
        rw [consRaw_key]
        rw [hc] at ih
        rw [List.chain'_cons']
        refine ⟨?_, ih⟩
        intro y hy
        simp only [List.head?] at hy
        obtain rfl := Option.some.inj hy
        simp [NotTwoRaw, isRawChunk]

theorem coalesce_mem_key :
    ∀ (ps : List Piece) (k : TemplateKey),
      TemplateInputChunk.key k ∈ coalesce ps → Piece.pk k ∈ ps := by
  intro ps
  induction ps with
  | nil => intro k h; simp [coalesce] at h
  | cons p rest ih =>
    intro k h
    match p with
    | Piece.pk k2 =>
      simp only [coalesce, List.mem_cons] at h
      rcases h with h | h
      · obtain rfl := TemplateInputChunk.key.inj h
        simp
      · exact List.mem_cons_of_mem _ (ih k h)
    | Piece.pc c =>
      simp only [coalesce] at h
      have hmem : TemplateInputChunk.key k ∈ coalesce rest := by
        match hc : coalesce rest with
        | [] => rw [hc, consRaw_nil] at h; simp at h
        | TemplateInputChunk.raw s2 :: out =>
          rw [hc, consRaw_raw] at h
          simp only [List.mem_cons] at h
          rcases h with h | h
          · exact absurd h (by simp)
          · exact List.mem_cons_of_mem _ h
        | TemplateInputChunk.key k2 :: out =>
          rw [hc, consRaw_key] at h
          simp only [List.mem_cons] at h
          rcases h with h | h | h
          · exact absurd h (by simp)
          · rw [h]; simp
          · exact List.mem_cons_of_mem _ h
      exact List.mem_cons_of_mem _ (ih k hmem)

theorem lexGo_key_close_single (acc : List Char) : lexGo (some acc) ['}'] = none := rfl

theorem lexGo_key_brace_bad (acc : List Char) (c2 : Char) (r : List Char)
    (hc2 : c2 ≠ '}') : lexGo (some acc) ('}' :: c2 :: r) = none := by
  rw [lexGo.eq_def]
  simp [hc2]

theorem lexGo_key_badchar (acc : List Char) (c : Char) (r : List Char)
    (hc : c ≠ '}') (hk : isKeyBodyChar c = false) : lexGo (some acc) (c :: r) = none := by
  rw [lexGo.eq_def]
  simp [hc, hk]

/-- Every key produced by the lexer carries a valid identifier. -/
theorem lexGo_keys_valid :
    ∀ (n : Nat) (m : Option (List Char)) (l : List Char) (ps : List Piece),
      l.length ≤ n → lexGo m l = some ps →
      ∀ k, Piece.pk k ∈ ps → validKey k = true := by
  intro n
  induction n with
  | zero =>
    intro m l ps hlen h k hk
    have hl : l = [] := List.length_eq_zero.mp (Nat.le_zero.mp hlen)
    subst hl
    match m with
    | some acc => exact Option.noConfusion h
    | none =>
      obtain rfl := Option.some.inj h
      simp at hk
  | succ n ih =>
    intro m l ps hlen h k hk
    match m, l with
    | some acc, [] => exact Option.noConfusion h
    | some acc, c :: rest =>
      by_cases hc : c = '}'
      · subst hc
        match rest with
        | [] => exact Option.noConfusion (h.symm.trans (lexGo_key_close_single acc))
        | c2 :: rest2 =>
          by_cases hc2 : c2 = '}'
          · subst hc2
            rw [lexGo_key_close] at h
            match hpk : parseKeyBody acc.reverse with
            | none => rw [hpk] at h; exact Option.noConfusion h
            | some k0 =>
              rw [hpk] at h
              simp only [Option.map_eq_some'] at h
              obtain ⟨ps2, hlex, hps⟩ := h
              subst hps
              simp only [List.mem_cons] at hk
              rcases hk with hk | hk
              · obtain rfl := Piece.pk.inj hk
                exact parseKeyBody_valid acc.reverse k hpk
              · exact ih none rest2 ps2 (by simp at hlen ⊢; omega) hlex k hk
          · rw [lexGo_key_brace_bad acc c2 rest2 hc2] at h
            exact Option.noConfusion h
      · by_cases hkb : isKeyBodyChar c
        · rw [lexGo_key_step acc c rest hc hkb] at h
          exact ih (some (c :: acc)) rest ps (by simp at hlen ⊢; omega) h k hk
        · rw [lexGo_key_badchar acc c rest hc (by simpa using hkb)] at h
          exact Option.noConfusion h
    | none, [] =>
      obtain rfl := Option.some.inj h
      simp at hk
    | none, [c] =>
      obtain rfl := Option.some.inj h
      simp at hk
    | none, a :: b :: rest =>
      by_cases ha : a = '\\'
      · subst ha
        match rest with
        | [] =>
          have h2 : some [Piece.pc '\\', Piece.pc b] = some ps := h
          obtain rfl := Option.some.inj h2
          simp at hk
        | c3 :: rest3 =>
          by_cases hbc : b = '{' ∧ c3 = '{'
          · obtain ⟨rfl, rfl⟩ := hbc
            rw [lexGo_esc_opener] at h
            simp only [Option.map_eq_some'] at h
            obtain ⟨ps2, hlex, hps⟩ := h
            subst hps
            simp only [List.mem_cons] at hk
            rcases hk with hk | hk | hk
            · exact absurd hk (by simp)
            · exact absurd hk (by simp)
            · exact ih none rest3 ps2 (by simp at hlen ⊢; omega) hlex k hk
          · rw [lexGo_esc_pair b c3 rest3 hbc] at h
            simp only [Option.map_eq_some'] at h
            obtain ⟨ps2, hlex, hps⟩ := h
            subst hps
            simp only [List.mem_cons] at hk
            rcases hk with hk | hk | hk
            · exact absurd hk (by simp)
            · exact absurd hk (by simp)
            · exact ih none (c3 :: rest3) ps2 (by simp at hlen ⊢; omega) hlex k hk
      · by_cases hab : a = '{' ∧ b = '{'
        · obtain ⟨rfl, rfl⟩ := hab
          rw [lexGo_opener] at h
          exact ih (some []) rest ps (by simp at hlen ⊢; omega) h k hk
        · rw [lexGo_generic a b rest ha hab] at h
          simp only [Option.map_eq_some'] at h
          obtain ⟨ps2, hlex, hps⟩ := h
          subst hps
          simp only [List.mem_cons] at hk
          rcases hk with hk | hk
          · exact absurd hk (by simp)
          · exact ih none (b :: rest) ps2 (by simp at hlen ⊢; omega) hlex k hk

/-! ## The round-trip theorems -/

/-- Does a key chunk (hence an opener in the serialization) follow? -/
def obOf : List TemplateInputChunk → Bool
  | [] => false
  | TemplateInputChunk.raw _ :: _ => false
  | TemplateInputChunk.key _ :: _ => true

/-- The escape-stability condition on a parsed chunk list: every raw
segment is `rawSafe` with respect to what follows it. Parsed templates
do not always satisfy this (see the counterexample below); it is
exactly the condition under which serialization re-parses. -/
def safeChunks : List TemplateInputChunk → Bool
  | [] => true
  | TemplateInputChunk.raw s :: rest => rawSafe s.data (obOf rest) && safeChunks rest
  | TemplateInputChunk.key _ :: rest => safeChunks rest

/-- Re-lexing a serialized well-formed, safe chunk list reproduces
exactly its pieces. -/
theorem lexGo_serializeChunks :
    ∀ (cs : List TemplateInputChunk),
      (∀ k, TemplateInputChunk.key k ∈ cs → validKey k = true) →
      List.Chain' NotTwoRaw cs →
      safeChunks cs = true →
      lexGo none (serializeChunks cs) = some (flattenPieces cs) := by
  intro cs
  induction cs with
  | nil => intro _ _ _; rfl
  | cons c rest ih =>
    intro hkeys hchain hsafe
    match c with
    | TemplateInputChunk.key k =>
      simp only [serializeChunks, flattenPieces]
      have hrest := ih (fun k2 hk2 => hkeys k2 (List.mem_cons_of_mem _ hk2))
        ((List.chain'_cons'.mp hchain).2) (by simpa [safeChunks] using hsafe)
      exact lexGo_serializeKey k _ _ (hkeys k (by simp)) hrest
    | TemplateInputChunk.raw s =>
      simp only [serializeChunks, flattenPieces]
      simp only [safeChunks, Bool.and_eq_true] at hsafe
      match rest with
      | [] =>
        rw [show serializeChunks [] = [] from rfl]
        have := lexGo_escapeRaw s.data.length s.data [] [] false le_rfl
          (by simpa [obOf] using hsafe.1) lexGo_none_nil (by simp)
        simpa [flattenPieces] using this
      | TemplateInputChunk.raw s2 :: rest2 =>
        exact absurd ⟨rfl, rfl⟩ (List.chain'_cons.mp hchain).1
      | TemplateInputChunk.key k :: rest2 =>
        have hrest := ih (fun k2 hk2 => hkeys k2 (List.mem_cons_of_mem _ hk2))
          ((List.chain'_cons'.mp hchain).2) hsafe.2
        have hshape : serializeChunks (TemplateInputChunk.key k :: rest2) =
            '{' :: '{' :: (keyBodyChars k ++ ['}', '}'] ++ serializeChunks rest2) := by
          simp [serializeChunks, serializeKey]
        exact lexGo_escapeRaw s.data.length s.data _ _ true le_rfl
          (by simpa [obOf] using hsafe.1) hrest
          (by rw [hshape]; exact ⟨_, rfl⟩)

/-- Coalescing a literal run on top of a chunk list that does not start
with a raw chunk produces a single raw chunk. -/
theorem coalesce_pc_run :
    ∀ (l : List Char) (ps : List Piece), l ≠ [] →
      (∀ s rest, coalesce ps ≠ TemplateInputChunk.raw s :: rest) →
      coalesce (l.map Piece.pc ++ ps) =
        TemplateInputChunk.raw (String.mk l) :: coalesce ps := by
  intro l
  induction l with
  | nil => intro ps h _; exact absurd rfl h
  | cons c l2 ih =>
    intro ps _ hhead
    match l2 with
    | [] =>
      simp only [List.map_cons, List.map_nil, List.nil_append, List.singleton_append, coalesce]
      match hc : coalesce ps with
      | [] => rw [consRaw_nil]
      | TemplateInputChunk.raw s2 :: out => exact absurd hc (hhead s2 out)
      | TemplateInputChunk.key k2 :: out => rw [consRaw_key]
    | c2 :: l3 =>
      have hih := ih ps (by simp) hhead
      simp only [List.map_cons, List.cons_append, coalesce, List.append_eq] at hih ⊢
      rw [hih, consRaw_raw]

/-- Coalescing the pieces of a well-formed chunk list gives back the
chunk list. -/
theorem coalesce_flattenPieces :
    ∀ (cs : List TemplateInputChunk),
      (∀ s, TemplateInputChunk.raw s ∈ cs → s.data ≠ []) →
      List.Chain' NotTwoRaw cs →
      coalesce (flattenPieces cs) = cs := by
  intro cs
  induction cs with
  | nil => intro _ _; rfl
  | cons c rest ih =>
    intro hne hchain
    match c with
    | TemplateInputChunk.key k =>
      simp only [flattenPieces, coalesce]
      rw [ih (fun s hs => hne s (List.mem_cons_of_mem _ hs)) (List.chain'_cons'.mp hchain).2]
    | TemplateInputChunk.raw s =>
      simp only [flattenPieces]
      have hhead : ∀ s2 r2, coalesce (flattenPieces rest) ≠
          TemplateInputChunk.raw s2 :: r2 := by
        intro s2 r2 hco
        match rest with
        | [] => simp [flattenPieces, coalesce] at hco
        | TemplateInputChunk.raw s3 :: rest2 =>
          exact absurd ⟨rfl, rfl⟩ (List.chain'_cons.mp hchain).1
        | TemplateInputChunk.key k :: rest2 =>
          simp only [flattenPieces, coalesce] at hco
          exact absurd (List.cons.inj hco).1 (by simp)
      rw [coalesce_pc_run s.data (flattenPieces rest) (hne s (by simp)) hhead]
      rw [ih (fun s2 hs => hne s2 (List.mem_cons_of_mem _ hs)) (List.chain'_cons'.mp hchain).2]

/-- Well-formedness facts about every successfully parsed template:
nonempty raw chunks, no two adjacent raw chunks, valid identifiers. -/
theorem parse_wf (s : String) (t : Template) (h : Template.parse s = some t) :
    (∀ s2, TemplateInputChunk.raw s2 ∈ t.chunks → s2.data ≠ []) ∧
      List.Chain' NotTwoRaw t.chunks ∧
      (∀ k, TemplateInputChunk.key k ∈ t.chunks → validKey k = true) := by
  simp only [Template.parse, parseChars, lex, Option.map_eq_some'] at h
  obtain ⟨cs, ⟨ps, hlex, hco⟩, hmk⟩ := h
  have hchunks : t.chunks = coalesce ps := by rw [← hmk, ← hco]
  refine ⟨?_, ?_, ?_⟩
  · intro s2 hs2
    rw [hchunks] at hs2
    exact coalesce_raw_ne_nil ps s2 hs2
  · rw [hchunks]
    exact coalesce_chain' ps
  · intro k hk
    rw [hchunks] at hk
    exact lexGo_keys_valid s.data.length none s.data ps le_rfl hlex k
      (coalesce_mem_key ps k hk)

/-- Serializing a parsed template and re-parsing gives the template
back, provided every raw chunk is escape-stable. -/
theorem parse_display_roundtrip (s : String) (t : Template)
    (hp : Template.parse s = some t) (hsafe : safeChunks t.chunks = true) :
    Template.parse t.display = some t := by
  obtain ⟨hne, hchain, hkeys⟩ := parse_wf s t hp
  have hlex : lexGo none (serializeChunks t.chunks) = some (flattenPieces t.chunks) :=
    lexGo_serializeChunks t.chunks hkeys hchain hsafe
  have hdata : (Template.display t).data = serializeChunks t.chunks := rfl
  unfold Template.parse parseChars lex
  rw [hdata, hlex]
  simp only [Option.map_some']
  rw [coalesce_flattenPieces t.chunks hne hchain]

example : Template.parse (String.mk ['a', 'b']) =
    some ⟨[TemplateInputChunk.raw (String.mk ['a', 'b'])]⟩ := by rfl

example : Template.parse (String.mk ['a', '{', '{', 'x', '}', '}']) =
    some ⟨[TemplateInputChunk.raw (String.mk ['a']),
           TemplateInputChunk.key (TemplateKey.field (String.mk ['x']))]⟩ := by rfl

example : Template.parse (String.mk ['{', '{', 'c', 'h', 'a', 'i', 'n', 's', '.', 'c', '1', '}', '}']) =
    some ⟨[TemplateInputChunk.key (TemplateKey.chain (String.mk ['c', '1']))]⟩ := by rfl

example : Template.parse (String.mk ['{', '{', 'e', 'n', 'v', '.', 'H', '}', '}']) =
    some ⟨[TemplateInputChunk.key (TemplateKey.environment (String.mk ['H']))]⟩ := by rfl

example : Template.parse (String.mk ['\\', '{', '{', 'x', '}', '}']) =
    some ⟨[TemplateInputChunk.raw (String.mk ['{', '{', 'x', '}', '}'])]⟩ := by rfl

example : Template.parse (String.mk ['{', '{', 'x']) = none := by rfl

example : Template.parse (String.mk []) = some ⟨[]⟩ := by rfl

example : Template.parse (String.mk ['\\', '{', '\\', '{', '{']) =
    some ⟨[TemplateInputChunk.raw (String.mk ['\\', '{', '{', '{'])]⟩ := by rfl

example : Template.display ⟨[TemplateInputChunk.raw (String.mk ['\\', '{', '{', '{'])]⟩ =
    String.mk ['\\', '\\', '{', '{', '{'] := by rfl

example : Template.parse (String.mk ['\\', '\\', '{', '{', '{']) = none := by rfl

example : safeChunks [TemplateInputChunk.raw (String.mk ['\\', '{', '{', '{'])] = false := by rfl

example :
    (Template.parse (String.mk ['a', '\\', 'b', ' ', '{', '{', 'x', '}', '}', ' ', 'y'])).isSome
      = true := by rfl

example :
    (Template.parse (String.mk ['a', '\\', 'b', ' ', '{', '{', 'x', '}', '}', ' ', 'y'])).map
      (fun t => safeChunks t.chunks) = some true := by rfl

example :
    (Template.parse (String.mk ['a', '\\', 'b', ' ', '{', '{', 'x', '}', '}', ' ', 'y'])).map
      Template.display =
    some (String.mk ['a', '\\', 'b', ' ', '{', '{', 'x', '}', '}', ' ', 'y']) := by rfl

/-! ## Error taxonomy (src/template/error.rs)

Error payloads that the Rust code stores as foreign types
(io::Error, FromUtf8Error, anyhow::Error, RequestBuildError,
RequestError, PathBuf) are modelled as strings; none of the claims
inspects their contents. -/

/-- Modelled from std::env::VarError (the payload of
TemplateError::EnvironmentVariable). -/
inductive VarError where
  | notPresent
  | notUnicode
deriving DecidableEq

/-- Error while building or executing a triggered request
(src/template/error.rs `TriggeredRequestError`). -/
inductive TriggeredRequestError where
  | notAllowed
  | build (msg : String)
  | send (msg : String)
deriving DecidableEq

mutual
/-- Any error that can occur during template rendering
(src/template/error.rs `TemplateError`). -/
inductive TemplateError where
  | noProfileSelected
  | profileUnknown (profileId : String)
  | fieldUnknown (field : String)
  | fieldNested (field : String) (error : TemplateError)
  | recursionLimit
  | chain (chainId : String) (error : ChainError)
  | environmentVariable (name : String) (error : VarError)
deriving DecidableEq

/-- An error that occurs while resolving a chained value
(src/template/error.rs `ChainError`). -/
inductive ChainError where
  | chainUnknown (id : String)
  | recipeUnknown (id : String)
  | database (msg : String)
  | invalidUtf8 (msg : String)
  | noResponse
  | unknownContentType
  | trigger (recipeId : String) (error : TriggeredRequestError)
  | parseResponse (msg : String)
  | query (msg : String)
  | commandMissing
  | command (cmd : List String) (msg : String)
  | file (path : String) (msg : String)
  | promptNoResponse
  | nested (field : String) (error : TemplateError)
  | missingHeader (header : String)
deriving DecidableEq
end

/-- A piece of a rendered template string (src/template.rs
`TemplateChunk`): raw text, the outcome of rendering a key, or a
per-key error. -/
inductive TemplateChunk where
  | raw (s : String)
  | rendered (value : String) (sensitive : Bool)
  | error (e : TemplateError)
deriving DecidableEq

/-! ## Collection data model

Modelled from the spec (section 3): the collection module is not in the
provided sources. Recipes are reduced to their identifiers: the HTTP
engine is an oracle (section 6) so nothing else of a recipe is
consulted by the template engine. The selector (a path query compiled
at definition time) and the content decoding it performs are abstracted
as a function from a body to the list of query results, or a parse
failure; no claim depends on the query language itself. -/

inductive ChainRequestTrigger where
  | never
  | noHistory
  | expire (seconds : Nat)
  | always

inductive ChainRequestSection where
  | body
  | header (name : String)

inductive ChainOutputTrim where
  | none
  | start
  | «end»
  | both

/-- A stored request/response pair. Time is modelled in seconds. -/
structure Exchange where
  body : String
  headers : List (String × String)
  endTime : Nat
deriving DecidableEq

inductive ContentType where
  | json

/-- Modelled from the spec: a compiled path query; `run` returns the
matches found in a decoded body, or a decode failure message. -/
structure Selector where
  run : String → Except String (List String)

inductive ChainSource where
  | request (recipe : String) (trigger : ChainRequestTrigger) (sect : ChainRequestSection)
  | command (cmd : List Template) (stdin : Option Template)
  | file (path : Template)
  | environment (envVar : Template)
  | prompt (message : Option Template) (defaultVal : Option Template)

/-- A chain: a named side-effecting value source. -/
structure Chain where
  id : String
  source : ChainSource
  selector : Option Selector
  contentType : Option ContentType
  trim : ChainOutputTrim
  sensitive : Bool

structure Profile where
  id : String
  data : List (String × Template)

structure Collection where
  profiles : List Profile
  chains : List Chain
  recipes : List String

/-- Result of a process environment variable lookup, mirroring
std::env::var. -/
inductive EnvValue where
  | present (s : String)
  | absent
  | notUnicode

structure PromptRequest where
  message : Option String
  defaultVal : Option String
  sensitive : Bool

/-- Outcome of the HTTP engine sending one recipe (spec section 6:
`send(recipe, ctx) → exchange`, may fail with Build or Send). -/
inductive HttpResult where
  | success (ex : Exchange)
  | buildError (msg : String)
  | sendError (msg : String)

/-- The render context (src/template.rs `TemplateContext`), together
with the oracles standing for the external world: the database
contents, the prompter's responses, the process environment, command
execution, file contents, the HTTP engine, and the clock. -/
structure TemplateContext where
  collection : Collection
  selectedProfile : Option String
  httpEngine : Option (String → HttpResult)
  database : String → Option Exchange
  overrides : List (String × String)
  prompter : PromptRequest → Option String
  env : String → EnvValue
  runCommand : List String → Option String → Except String String
  readFile : String → Except String String
  now : Nat
  recursionCount : Nat

/-! ## Render driver

Modelled from the spec (sections 4.4-4.6): the render module is not in
the provided sources. The driver is written sequentially in source
order; the shared atomic recursion counter, the database (for
read-your-writes of triggered exchanges) and a log of performed side
effects are threaded as explicit state. -/

/-- One side effect performed during rendering. -/
inductive Effect where
  | httpSend (recipe : String)
  | execCommand (cmd : List String) (stdinData : Option String)
  | fileRead (path : String)
  | envRead (name : String)
  | prompted (message : Option String) (defaultVal : Option String) (sensitive : Bool)

/-- The state threaded through a render tree: the recursion counter,
the visible database contents, and the effects performed so far. -/
structure RenderState where
  count : Nat
  db : String → Option Exchange
  effects : List Effect

/-- Increment the recursion counter (the fetch-add on the shared
atomic). -/
def RenderState.incr (st : RenderState) : RenderState :=
  { st with count := st.count + 1 }

def lookupOverride (ctx : TemplateContext) (k : String) : Option String :=
  (ctx.overrides.find? (fun p => p.1 == k)).map Prod.snd

def lookupHeader (headers : List (String × String)) (name : String) : Option String :=
  (headers.find? (fun p => p.1 == name)).map Prod.snd

/-- Flatten rendered chunks to a single string; the first error chunk
in source order fails the whole render. -/
def flattenChunks : List TemplateChunk → Except TemplateError String
  | [] => Except.ok ""
  | TemplateChunk.raw s :: rest => (flattenChunks rest).map (fun acc => s ++ acc)
  | TemplateChunk.rendered v _ :: rest => (flattenChunks rest).map (fun acc => v ++ acc)
  | TemplateChunk.error e :: _ => Except.error e

/-- How one key is rendered in one state: the interface between the
driver and the per-key resolver, used to tie the recursion. -/
abbrev KeyRenderer := TemplateKey → RenderState → TemplateChunk × RenderState

/-- Expand chunks in source order: raw chunks pass through, key chunks
go to the key renderer. -/
def renderChunksWith (kr : KeyRenderer) :
    List TemplateInputChunk → RenderState → List TemplateChunk × RenderState
  | [], st => ([], st)
  | TemplateInputChunk.raw s :: rest, st =>
    let p := renderChunksWith kr rest st
    (TemplateChunk.raw s :: p.1, p.2)
  | TemplateInputChunk.key k :: rest, st =>
    let p1 := kr k st
    let p2 := renderChunksWith kr rest p1.2
    (p1.1 :: p2.1, p2.2)

/-- Render a nested template to a string (render + flatten). -/
def renderNestedWith (kr : KeyRenderer) (t : Template) (st : RenderState) :
    Except TemplateError String × RenderState :=
  let p := renderChunksWith kr t.chunks st
  (flattenChunks p.1, p.2)

/-- Render an optional nested template (chain arguments); errors are
wrapped as ChainError.nested with the argument's field name. -/
def renderOptionalWith (kr : KeyRenderer) (field : String) :
    Option Template → RenderState → Except ChainError (Option String) × RenderState
  | Option.none, st => (Except.ok Option.none, st)
  | some t, st =>
    match renderNestedWith kr t st with
    | (Except.ok s, st2) => (Except.ok (some s), st2)
    | (Except.error e, st2) => (Except.error (ChainError.nested field e), st2)

/-- Render the element templates of a command, indexed for error
context. -/
def renderCommandArgs (kr : KeyRenderer) :
    List Template → Nat → RenderState → Except ChainError (List String) × RenderState
  | [], _, st => (Except.ok [], st)
  | t :: rest, i, st =>
    match renderNestedWith kr t st with
    | (Except.error e, st2) =>
      (Except.error (ChainError.nested ("command[" ++ toString i ++ "]") e), st2)
    | (Except.ok s, st2) =>
      match renderCommandArgs kr rest (i + 1) st2 with
      | (Except.ok l, st3) => (Except.ok (s :: l), st3)
      | (Except.error e, st3) => (Except.error e, st3)

/-- Modelled from the spec (trigger table in section 4.6): should a
fresh request be sent? -/
def shouldSend (trigger : ChainRequestTrigger) (latest : Option Exchange) (now : Nat) : Bool :=
  match trigger, latest with
  | ChainRequestTrigger.never, _ => false
  | ChainRequestTrigger.noHistory, some _ => false
  | ChainRequestTrigger.noHistory, Option.none => true
  | ChainRequestTrigger.expire d, some ex => decide (d < now - ex.endTime)
  | ChainRequestTrigger.expire _, Option.none => true
  | ChainRequestTrigger.always, _ => true

/-- Modelled from the spec: obtain the exchange for a request chain.
A fresh send requires the HTTP engine; its result is stored in the
database so later reads in the same render tree observe it. -/
def chainRequest (ctx : TemplateContext) (recipe : String)
    (trigger : ChainRequestTrigger) (st : RenderState) :
    Except ChainError Exchange × RenderState :=
  if ctx.collection.recipes.contains recipe then
    let latest := st.db recipe
    if shouldSend trigger latest ctx.now then
      match ctx.httpEngine with
      | Option.none =>
        (Except.error (ChainError.trigger recipe TriggeredRequestError.notAllowed), st)
      | some send2 =>
        let st2 := { st with effects := st.effects ++ [Effect.httpSend recipe] }
        match send2 recipe with
        | HttpResult.success ex =>
          (Except.ok ex, { st2 with db := fun r => if r = recipe then some ex else st2.db r })
        | HttpResult.buildError m =>
          (Except.error (ChainError.trigger recipe (TriggeredRequestError.build m)), st2)
        | HttpResult.sendError m =>
          (Except.error (ChainError.trigger recipe (TriggeredRequestError.send m)), st2)
    else
      match latest with
      | some ex => (Except.ok ex, st)
      | Option.none => (Except.error ChainError.noResponse, st)
  else (Except.error (ChainError.recipeUnknown recipe), st)

/-- Content type inferred from upstream metadata (the response's
Content-Type header). -/
def inferContentType (ex : Exchange) : Option ContentType :=
  match lookupHeader ex.headers "content-type" with
  | some v => if v = "application/json" then some ContentType.json else Option.none
  | Option.none => Option.none

/-- Modelled from the spec (section 4.6, step 2): apply the selector,
requiring a resolvable content type and exactly one query result. -/
def applySelector (sel : Option Selector) (ct : Option ContentType) (bytes : String) :
    Except ChainError String :=
  match sel with
  | Option.none => Except.ok bytes
  | some q =>
    match ct with
    | Option.none => Except.error ChainError.unknownContentType
    | some ContentType.json =>
      match q.run bytes with
      | Except.error m => Except.error (ChainError.parseResponse m)
      | Except.ok [x] => Except.ok x
      | Except.ok [] => Except.error (ChainError.query "query returned no results")
      | Except.ok _ => Except.error (ChainError.query "query returned multiple results")

/-- Drop leading whitespace. -/
def trimLeftStr (s : String) : String :=
  String.mk (s.data.dropWhile Char.isWhitespace)

/-- Drop trailing whitespace. -/
def trimRightStr (s : String) : String :=
  String.mk ((s.data.reverse.dropWhile Char.isWhitespace).reverse)

/-- Modelled from the spec (section 4.6, step 3). -/
def applyTrim : ChainOutputTrim → String → String
  | ChainOutputTrim.none, s => s
  | ChainOutputTrim.start, s => trimLeftStr s
  | ChainOutputTrim.«end», s => trimRightStr s
  | ChainOutputTrim.both, s => trimLeftStr (trimRightStr s)

/-- Modelled from the spec (section 4.6): raw bytes of a chain source,
together with any upstream content-type metadata. For the environment
source, a missing variable and non-unicode content both yield the
empty string: `ChainError` has no variant capable of holding an
environment variable error (std::env::var(..).unwrap_or_default()). -/
def chainSourceBytes (kr : KeyRenderer) (ctx : TemplateContext) (ch : Chain)
    (st : RenderState) : Except ChainError (String × Option ContentType) × RenderState :=
  match ch.source with
    | ChainSource.request recipe trigger sect =>
      match chainRequest ctx recipe trigger st with
      | (Except.error e, st2) => (Except.error e, st2)
      | (Except.ok ex, st2) =>
        match sect with
        | ChainRequestSection.body => (Except.ok (ex.body, inferContentType ex), st2)
        | ChainRequestSection.header h =>
          match lookupHeader ex.headers h with
          | some v => (Except.ok (v, inferContentType ex), st2)
          | Option.none => (Except.error (ChainError.missingHeader h), st2)
    | ChainSource.command cmd stdinT =>
      if cmd.isEmpty then (Except.error ChainError.commandMissing, st)
      else
        match renderCommandArgs kr cmd 0 st with
        | (Except.error e, st2) => (Except.error e, st2)
        | (Except.ok args, st2) =>
          match renderOptionalWith kr "stdin" stdinT st2 with
          | (Except.error e, st3) => (Except.error e, st3)
          | (Except.ok stdinData, st3) =>
            let st4 := { st3 with effects := st3.effects ++ [Effect.execCommand args stdinData] }
            match ctx.runCommand args stdinData with
            | Except.ok out => (Except.ok (out, Option.none), st4)
            | Except.error m => (Except.error (ChainError.command args m), st4)
    | ChainSource.file pathT =>
      match renderNestedWith kr pathT st with
      | (Except.error e, st2) => (Except.error (ChainError.nested "path" e), st2)
      | (Except.ok p, st2) =>
        let st3 := { st2 with effects := st2.effects ++ [Effect.fileRead p] }
        match ctx.readFile p with
        | Except.ok content => (Except.ok (content, Option.none), st3)
        | Except.error m => (Except.error (ChainError.file p m), st3)
    | ChainSource.environment varT =>
      match renderNestedWith kr varT st with
      | (Except.error e, st2) => (Except.error (ChainError.nested "variable" e), st2)
      | (Except.ok v, st2) =>
        let st3 := { st2 with effects := st2.effects ++ [Effect.envRead v] }
        match ctx.env v with
        | EnvValue.present s => (Except.ok (s, Option.none), st3)
        | EnvValue.absent => (Except.ok ("", Option.none), st3)
        | EnvValue.notUnicode => (Except.ok ("", Option.none), st3)
    | ChainSource.prompt messageT defaultT =>
      match renderOptionalWith kr "message" messageT st with
      | (Except.error e, st2) => (Except.error e, st2)
      | (Except.ok msg, st2) =>
        match renderOptionalWith kr "default" defaultT st2 with
        | (Except.error e, st3) => (Except.error e, st3)
        | (Except.ok defv, st3) =>
          let st4 :=
            { st3 with effects := st3.effects ++ [Effect.prompted msg defv ch.sensitive] }
          match ctx.prompter ⟨msg, defv, ch.sensitive⟩ with
          | some answer => (Except.ok (answer, Option.none), st4)
          | Option.none =>
            match defv with
            | some d => (Except.ok (d, Option.none), st4)
            | Option.none => (Except.error ChainError.promptNoResponse, st4)

/-- Modelled from the spec (section 4.6): the chain engine. Produces
raw bytes from the source, then applies the selector (against the
explicit or inferred content type) and the trim policy. -/
def chainEngineWith (kr : KeyRenderer) (ctx : TemplateContext) (ch : Chain)
    (st : RenderState) : Except ChainError String × RenderState :=
  match chainSourceBytes kr ctx ch st with
  | (Except.error e, st2) => (Except.error e, st2)
  | (Except.ok (bytes, inferred), st2) =>
    match applySelector ch.selector (ch.contentType <|> inferred) bytes with
    | Except.error e => (Except.error e, st2)
    | Except.ok txt => (Except.ok (applyTrim ch.trim txt), st2)

/-- Modelled from the spec (section 4.5, Field): overrides first, then
the selected profile; nested values are parsed (for overrides) and
recursively rendered, wrapping errors as FieldNested. The behavior when
an override value fails to parse is not specified (and TemplateError
has no parse variant); the model reports the field as unknown in that
case, which no claim depends on. -/
def renderFieldWith (kr : KeyRenderer) (ctx : TemplateContext) (id : String)
    (st : RenderState) : TemplateChunk × RenderState :=
  match lookupOverride ctx id with
  | some v =>
    match Template.parse v with
    | some t =>
      match renderNestedWith kr t st with
      | (Except.ok s, st2) => (TemplateChunk.rendered s false, st2)
      | (Except.error e, st2) => (TemplateChunk.error (TemplateError.fieldNested id e), st2)
    | Option.none => (TemplateChunk.error (TemplateError.fieldUnknown id), st)
  | Option.none =>
    match ctx.selectedProfile with
    | Option.none => (TemplateChunk.error TemplateError.noProfileSelected, st)
    | some pid =>
      match ctx.collection.profiles.find? (fun p => p.id == pid) with
      | Option.none => (TemplateChunk.error (TemplateError.profileUnknown pid), st)
      | some p =>
        match (p.data.find? (fun q => q.1 == id)).map Prod.snd with
        | Option.none => (TemplateChunk.error (TemplateError.fieldUnknown id), st)
        | some t =>
          match renderNestedWith kr t st with
          | (Except.ok s, st2) => (TemplateChunk.rendered s false, st2)
          | (Except.error e, st2) => (TemplateChunk.error (TemplateError.fieldNested id e), st2)

/-- Modelled from the spec (section 4.5): resolve one key, overrides
first. Chain and environment overrides are used verbatim and carry
sensitive = false; a chain engine result carries the chain's
sensitive flag. -/
def dispatchKey (kr : KeyRenderer) (ctx : TemplateContext) :
    TemplateKey → RenderState → TemplateChunk × RenderState
  | TemplateKey.field id, st => renderFieldWith kr ctx id st
  | TemplateKey.chain id, st =>
    match lookupOverride ctx (String.mk chainsDot ++ id) with
    | some v => (TemplateChunk.rendered v false, st)
    | Option.none =>
      match ctx.collection.chains.find? (fun c => c.id == id) with
      | Option.none =>
        (TemplateChunk.error (TemplateError.chain id (ChainError.chainUnknown id)), st)
      | some ch =>
        match chainEngineWith kr ctx ch st with
        | (Except.ok s, st2) => (TemplateChunk.rendered s ch.sensitive, st2)
        | (Except.error e, st2) => (TemplateChunk.error (TemplateError.chain id e), st2)
  | TemplateKey.environment id, st =>
    match lookupOverride ctx (String.mk envDot ++ id) with
    | some v => (TemplateChunk.rendered v false, st)
    | Option.none =>
      let st2 := { st with effects := st.effects ++ [Effect.envRead id] }
      match ctx.env id with
      | EnvValue.present s => (TemplateChunk.rendered s false, st2)
      | EnvValue.absent => (TemplateChunk.rendered "" false, st2)
      | EnvValue.notUnicode =>
        (TemplateChunk.error (TemplateError.environmentVariable id VarError.notUnicode), st2)

/-- Modelled from the spec (section 4.4): a key expansion increments
the shared counter first and fails with RecursionLimit once the new
value passes the limit; otherwise it dispatches, with every nested
expansion going through the same check. The fuel argument only bounds
the call depth: at the top level it is RECURSION_LIMIT + 1, which the
counter check can never exhaust (an exhausted fuel implies the counter
is already past the limit, in which case RecursionLimit is what the
check itself would produce). -/
def renderKeyFuel (ctx : TemplateContext) :
    Nat → TemplateKey → RenderState → TemplateChunk × RenderState
  | 0, _, st => (TemplateChunk.error TemplateError.recursionLimit, st.incr)
  | fuel + 1, k, st =>
    let st2 := st.incr
    if RECURSION_LIMIT < st2.count then (TemplateChunk.error TemplateError.recursionLimit, st2)
    else dispatchKey (fun k2 s2 => renderKeyFuel ctx fuel k2 s2) ctx k st2

/-- The state a fresh render starts from. -/
def initState (ctx : TemplateContext) : RenderState :=
  ⟨ctx.recursionCount, ctx.database, []⟩

/-- The key renderer used at the top of a render tree. -/
def topKeyRenderer (ctx : TemplateContext) : KeyRenderer :=
  renderKeyFuel ctx (RECURSION_LIMIT + 1)

/-- Render a template to chunks, also returning the final state. -/
def renderChunksState (t : Template) (ctx : TemplateContext) :
    List TemplateChunk × RenderState :=
  renderChunksWith (topKeyRenderer ctx) t.chunks (initState ctx)

/-- Render a template to its chunk list (spec section 4.3,
render_chunks). -/
def Template.renderChunks (t : Template) (ctx : TemplateContext) : List TemplateChunk :=
  (renderChunksState t ctx).1

/-- Render and flatten (spec section 4.3, render): the first chunk
error fails the render. -/
def Template.render (t : Template) (ctx : TemplateContext) : Except TemplateError String :=
  flattenChunks (t.renderChunks ctx)

/-- Render to a string (spec section 4.3, render_string). In this model
values are strings, so the UTF-8 decoding step of render_string is the
identity and it coincides with render. -/
def Template.renderString (t : Template) (ctx : TemplateContext) :
    Except TemplateError String :=
  t.render ctx


/-! ## Baseline concrete context (analogous to the test factory in
src/template.rs) used by concrete witnesses below. -/

def emptyCollection : Collection := ⟨[], [], []⟩

def baseContext : TemplateContext where
  collection := emptyCollection
  selectedProfile := Option.none
  httpEngine := Option.none
  database := fun _ => Option.none
  overrides := []
  prompter := fun _ => Option.none
  env := fun _ => EnvValue.absent
  runCommand := fun _ _ => Except.error "not available"
  readFile := fun _ => Except.error "not available"
  now := 0
  recursionCount := 0

example :
    Template.renderChunks ⟨[TemplateInputChunk.key (TemplateKey.field "x")]⟩ baseContext =
      [TemplateChunk.error TemplateError.noProfileSelected] := by rfl

example :
    Template.renderString (Template.raw (String.mk ['{', '{', 'x', '}', '}'])) baseContext =
      Except.ok (String.mk ['{', '{', 'x', '}', '}']) := by rfl

def loopContext : TemplateContext :=
  { baseContext with
      collection := ⟨[⟨"p", [("r", ⟨[TemplateInputChunk.key (TemplateKey.field "r")]⟩)]⟩], [], []⟩
      selectedProfile := some "p" }

example :
    (Template.render ⟨[TemplateInputChunk.key (TemplateKey.field "r")]⟩ loopContext).isOk
      = false := by rfl

example :
    (renderChunksState ⟨[TemplateInputChunk.key (TemplateKey.field "r")]⟩ loopContext).2.count
      = 11 := by rfl


/-! ## The anyhow error chain and has_trigger_disabled_error
(src/template/error.rs lines 195-213) -/

/-- One link in an anyhow cause chain, as seen by downcast_ref: either
a TemplateError, a bare ChainError, a bare TriggeredRequestError, or
some other error. -/
inductive DynError where
  | tmpl (e : TemplateError)
  | chainLink (e : ChainError)
  | trig (e : TriggeredRequestError)
  | other (msg : String)
deriving DecidableEq

/-- The predicate matched by has_trigger_disabled_error on one link:
a TemplateError::Chain whose cause is ChainError::Trigger with inner
cause TriggeredRequestError::NotAllowed. -/
def isTriggerDisabledLink : DynError → Bool
  | DynError.tmpl (TemplateError.chain _ (ChainError.trigger _ TriggeredRequestError.notAllowed)) =>
    true
  | _ => false

/-- src/template/error.rs `TemplateError::has_trigger_disabled_error`:
scan every link of the cause chain for the pattern above. -/
def hasTriggerDisabledError (chain : List DynError) : Bool :=
  chain.any isTriggerDisabledLink

theorem isTriggerDisabledLink_iff (l : DynError) :
    isTriggerDisabledLink l = true ↔
      ∃ cid rid, l = DynError.tmpl
        (TemplateError.chain cid (ChainError.trigger rid TriggeredRequestError.notAllowed)) := by
  constructor
  · intro h
    unfold isTriggerDisabledLink at h
    split at h
    · next cid rid => exact ⟨cid, rid, rfl⟩
    · exact Bool.noConfusion h
  · rintro ⟨cid, rid, rfl⟩
    rfl


/-! ## Claim C10 -/

/-- C10: for every anyhow error value,
TemplateError::has_trigger_disabled_error returns true if and only if
some link of the cause chain downcasts to a TemplateError::Chain whose
cause is ChainError::Trigger with inner cause
TriggeredRequestError::NotAllowed; no other link shape (including a
bare ChainError::Trigger not wrapped in TemplateError::Chain) makes it
return true. -/
theorem c10_has_trigger_disabled_error_iff (c : List DynError) :
    hasTriggerDisabledError c = true ↔
      ∃ cid rid, DynError.tmpl
        (TemplateError.chain cid (ChainError.trigger rid TriggeredRequestError.notAllowed)) ∈ c := by
  unfold hasTriggerDisabledError
  rw [List.any_eq_true]
  constructor
  · rintro ⟨l, hmem, hl⟩
    obtain ⟨cid, rid, rfl⟩ := (isTriggerDisabledLink_iff l).mp hl
    exact ⟨cid, rid, hmem⟩
  · rintro ⟨cid, rid, hmem⟩
    exact ⟨_, hmem, (isTriggerDisabledLink_iff _).mpr ⟨cid, rid, rfl⟩⟩

/-- Witness for C10 at a concrete error chain: the wrapped link is
found, and on a chain holding only the bare (unwrapped) ChainError the
scan returns false. -/
theorem c10_has_trigger_disabled_error_witness :
    hasTriggerDisabledError
        [DynError.other "ctx",
         DynError.tmpl (TemplateError.chain "c1"
           (ChainError.trigger "r1" TriggeredRequestError.notAllowed))] = true ∧
      hasTriggerDisabledError
        [DynError.chainLink (ChainError.trigger "r1" TriggeredRequestError.notAllowed)] = false :=
  ⟨(c10_has_trigger_disabled_error_iff _).mpr ⟨"c1", "r1", by simp⟩, by rfl⟩

/-! ## Claim C7 -/

/-- C7 counterexample: `Template::raw` applied to the empty string
produces an empty chunk list, not a single raw chunk containing the
string (src/template.rs lines 83-93). -/
theorem c7_counterexample :
    ¬((Template.raw "").chunks = [TemplateInputChunk.raw ""]) := by
  decide

/-- C7 amended: for every nonempty input string, `Template::raw`
produces exactly one raw chunk containing the string; for the empty
string it produces an empty chunk list; in every case there is no key
chunk, so template syntax in the input is never interpreted. -/
theorem c7_raw_single_chunk (s : String) :
    (s.isEmpty = false → (Template.raw s).chunks = [TemplateInputChunk.raw s]) ∧
      (s.isEmpty = true → (Template.raw s).chunks = []) ∧
      (∀ c, c ∈ (Template.raw s).chunks → c = TemplateInputChunk.raw s) := by
  refine ⟨fun h => ?_, fun h => ?_, fun c hc => ?_⟩
  · rw [Template.raw, if_neg (by simp [h])]
  · rw [Template.raw, if_pos h]
  · rw [Template.raw] at hc
    by_cases h : s.isEmpty
    · rw [if_pos h] at hc
      simp at hc
    · rw [if_neg h] at hc
      simpa using hc

/-- Witness for C7 at an input that is template syntax: the double
opening brace is kept as raw text and not parsed as a key. -/
theorem c7_raw_single_chunk_witness :
    (Template.raw (String.mk ['{', '{', 'x', '}', '}'])).chunks =
      [TemplateInputChunk.raw (String.mk ['{', '{', 'x', '}', '}'])] :=
  (c7_raw_single_chunk (String.mk ['{', '{', 'x', '}', '}'])).1 (by rfl)

/-! ## Claim C8 -/

/-- C8: for every string and every render context, rendering
`Template::raw(s)` to a string succeeds and returns exactly the input
string. -/
theorem c8_raw_render_string (s : String) (ctx : TemplateContext) :
    Template.renderString (Template.raw s) ctx = Except.ok s := by
  unfold Template.renderString Template.render Template.renderChunks renderChunksState
    Template.raw
  by_cases h : s.isEmpty
  · rw [if_pos h]
    obtain rfl := (String.isEmpty_iff s).mp h
    rfl
  · rw [if_neg h]
    simp [renderChunksWith, flattenChunks, Except.map]


/-! ## Claim C2 -/

/-- C2 counterexample: parsing the five-character source
backslash-brace-backslash-brace-brace succeeds (one raw chunk holding
backslash and three braces), its serialization is
backslash-backslash-brace-brace-brace (only the double opening brace is
escaped; the raw backslash is kept), and parsing that serialization
fails: the two leading backslashes re-lex as a verbatim pair, exposing
a malformed key opener. Hence parse(serialize(parse(s))) differs from
parse(s) at this input. -/
theorem c2_counterexample :
    Template.parse (String.mk ['\\', '{', '\\', '{', '{']) =
        some ⟨[TemplateInputChunk.raw (String.mk ['\\', '{', '{', '{'])]⟩ ∧
      Template.display ⟨[TemplateInputChunk.raw (String.mk ['\\', '{', '{', '{'])]⟩ =
        String.mk ['\\', '\\', '{', '{', '{'] ∧
      Template.parse (String.mk ['\\', '\\', '{', '{', '{']) = none := by
  refine ⟨by rfl, by rfl, by rfl⟩

/-- C2 amended: for every source string on which parse succeeds,
serializing the parsed template and re-parsing yields exactly the
same chunks, provided every raw chunk of the parsed template is
escape-stable (`safeChunks`: re-resolving its escapes never lets one of
its backslashes or braces fuse with an inserted escape or with the
opener of a following key; the counterexample above violates this). -/
theorem c2_parse_serialize_roundtrip (s : String) (t : Template)
    (hp : Template.parse s = some t) (hsafe : safeChunks t.chunks = true) :
    Template.parse t.display = some t :=
  parse_display_roundtrip s t hp hsafe

/-- Witness for C2 at a source containing a verbatim backslash escape,
a field key, a chain key and literal text. -/
theorem c2_parse_serialize_roundtrip_witness :
    Template.parse
        (Template.display
          ⟨[TemplateInputChunk.raw (String.mk ['a', '\\', 'b', ' ']),
            TemplateInputChunk.key (TemplateKey.field "x"),
            TemplateInputChunk.raw (String.mk [' ']),
            TemplateInputChunk.key (TemplateKey.chain "c1"),
            TemplateInputChunk.raw (String.mk [' ', 'y'])]⟩) =
      some
        ⟨[TemplateInputChunk.raw (String.mk ['a', '\\', 'b', ' ']),
          TemplateInputChunk.key (TemplateKey.field "x"),
          TemplateInputChunk.raw (String.mk [' ']),
          TemplateInputChunk.key (TemplateKey.chain "c1"),
          TemplateInputChunk.raw (String.mk [' ', 'y'])]⟩ :=
  c2_parse_serialize_roundtrip
    (String.mk ['a', '\\', 'b', ' ', '{', '{', 'x', '}', '}', ' ',
      '{', '{', 'c', 'h', 'a', 'i', 'n', 's', '.', 'c', '1', '}', '}', ' ', 'y'])
    _ (by rfl) (by rfl)


/-! ## Stepping lemmas for the key renderer -/

/-- Below the limit, a key expansion increments the counter and
dispatches. -/
theorem renderKeyFuel_step (ctx : TemplateContext) (fuel : Nat) (k : TemplateKey)
    (st : RenderState) (h : st.count < RECURSION_LIMIT) :
    renderKeyFuel ctx (fuel + 1) k st =
      dispatchKey (fun k2 s2 => renderKeyFuel ctx fuel k2 s2) ctx k st.incr := by
  rw [renderKeyFuel]
  rw [if_neg (by simp [RenderState.incr]; omega)]

/-- At or past the limit, a key expansion increments the counter and
fails with RecursionLimit. -/
theorem renderKeyFuel_limit (ctx : TemplateContext) (fuel : Nat) (k : TemplateKey)
    (st : RenderState) (h : RECURSION_LIMIT ≤ st.count) :
    renderKeyFuel ctx (fuel + 1) k st =
      (TemplateChunk.error TemplateError.recursionLimit, st.incr) := by
  rw [renderKeyFuel]
  rw [if_pos (by simp [RenderState.incr]; omega)]


/-! ## Claim C3 -/

/-- C3: resolution of a Field key. (1) If the overrides map contains
the identifier, its value is parsed as a template and rendered
(overrides win; nested failures wrap as FieldNested). (2) Otherwise the
selected profile's field is rendered. (3) If the profile is consulted
and lacks the field, rendering fails with FieldUnknown. (4) If the
profile lookup step is required while no profile is selected, it fails
with NoProfileSelected. -/
theorem c3_field_lookup (ctx : TemplateContext) (id : String) (st : RenderState)
    (fuel : Nat) (hlt : st.count < RECURSION_LIMIT) :
    (∀ v t s st2, lookupOverride ctx id = some v → Template.parse v = some t →
        renderNestedWith (fun k2 s2 => renderKeyFuel ctx fuel k2 s2) t st.incr =
          (Except.ok s, st2) →
        renderKeyFuel ctx (fuel + 1) (TemplateKey.field id) st =
          (TemplateChunk.rendered s false, st2)) ∧
      (∀ v t e st2, lookupOverride ctx id = some v → Template.parse v = some t →
        renderNestedWith (fun k2 s2 => renderKeyFuel ctx fuel k2 s2) t st.incr =
          (Except.error e, st2) →
        renderKeyFuel ctx (fuel + 1) (TemplateKey.field id) st =
          (TemplateChunk.error (TemplateError.fieldNested id e), st2)) ∧
      (∀ pid p t s st2, lookupOverride ctx id = none →
        ctx.selectedProfile = some pid →
        ctx.collection.profiles.find? (fun q => q.id == pid) = some p →
        (p.data.find? (fun q => q.1 == id)).map Prod.snd = some t →
        renderNestedWith (fun k2 s2 => renderKeyFuel ctx fuel k2 s2) t st.incr =
          (Except.ok s, st2) →
        renderKeyFuel ctx (fuel + 1) (TemplateKey.field id) st =
          (TemplateChunk.rendered s false, st2)) ∧
      (∀ pid p, lookupOverride ctx id = none →
        ctx.selectedProfile = some pid →
        ctx.collection.profiles.find? (fun q => q.id == pid) = some p →
        (p.data.find? (fun q => q.1 == id)).map Prod.snd = none →
        renderKeyFuel ctx (fuel + 1) (TemplateKey.field id) st =
          (TemplateChunk.error (TemplateError.fieldUnknown id), st.incr)) ∧
      (lookupOverride ctx id = none → ctx.selectedProfile = none →
        renderKeyFuel ctx (fuel + 1) (TemplateKey.field id) st =
          (TemplateChunk.error TemplateError.noProfileSelected, st.incr)) := by
  refine ⟨?_, ?_, ?_, ?_, ?_⟩
  · intro v t s st2 hov hparse hnest
    rw [renderKeyFuel_step ctx fuel _ st hlt]
    show renderFieldWith _ ctx id st.incr = _
    unfold renderFieldWith
    simp only [hov, hparse, hnest]
  · intro v t e st2 hov hparse hnest
    rw [renderKeyFuel_step ctx fuel _ st hlt]
    show renderFieldWith _ ctx id st.incr = _
    unfold renderFieldWith
    simp only [hov, hparse, hnest]
  · intro pid p t s st2 hov hsel hfind hfield hnest
    rw [renderKeyFuel_step ctx fuel _ st hlt]
    show renderFieldWith _ ctx id st.incr = _
    unfold renderFieldWith
    simp only [hov, hsel, hfind, hfield, hnest]
  · intro pid p hov hsel hfind hfield
    rw [renderKeyFuel_step ctx fuel _ st hlt]
    show renderFieldWith _ ctx id st.incr = _
    unfold renderFieldWith
    simp only [hov, hsel, hfind, hfield]
  · intro hov hsel
    rw [renderKeyFuel_step ctx fuel _ st hlt]
    show renderFieldWith _ ctx id st.incr = _
    unfold renderFieldWith
    simp only [hov, hsel]

/-- A concrete context with one override, one profile field and no
other sources, for the C3 witness. -/
def c3ctx : TemplateContext :=
  { baseContext with
      overrides := [("f", "ov")]
      collection := ⟨[⟨"p", [("g", Template.raw "pv")]⟩], [], []⟩
      selectedProfile := some "p" }

/-- Witness for C3: the override wins for field f, the profile value
renders for field g, an unknown field fails with FieldUnknown, and with
no profile selected the lookup fails with NoProfileSelected. -/
theorem c3_field_lookup_witness :
    renderKeyFuel c3ctx 11 (TemplateKey.field "f") (initState c3ctx) =
        (TemplateChunk.rendered "ov" false,
          RenderState.mk 1 c3ctx.database []) ∧
      renderKeyFuel c3ctx 11 (TemplateKey.field "g") (initState c3ctx) =
        (TemplateChunk.rendered "pv" false,
          RenderState.mk 1 c3ctx.database []) ∧
      renderKeyFuel c3ctx 11 (TemplateKey.field "h") (initState c3ctx) =
        (TemplateChunk.error (TemplateError.fieldUnknown "h"),
          RenderState.mk 1 c3ctx.database []) ∧
      renderKeyFuel baseContext 11 (TemplateKey.field "f") (initState baseContext) =
        (TemplateChunk.error TemplateError.noProfileSelected,
          RenderState.mk 1 baseContext.database []) := by
  refine ⟨?_, ?_, ?_, ?_⟩
  · exact (c3_field_lookup c3ctx "f" (initState c3ctx) 10 (by decide)).1
      "ov" ⟨[TemplateInputChunk.raw "ov"]⟩ "ov" (RenderState.mk 1 c3ctx.database [])
      (by rfl) (by rfl) (by rfl)
  · exact (c3_field_lookup c3ctx "g" (initState c3ctx) 10 (by decide)).2.2.1
      "p" ⟨"p", [("g", Template.raw "pv")]⟩ (Template.raw "pv") "pv"
      (RenderState.mk 1 c3ctx.database [])
      (by rfl) (by rfl) (by rfl) (by rfl) (by rfl)
  · exact (c3_field_lookup c3ctx "h" (initState c3ctx) 10 (by decide)).2.2.2.1
      "p" ⟨"p", [("g", Template.raw "pv")]⟩ (by rfl) (by rfl) (by rfl) (by rfl)
  · exact (c3_field_lookup baseContext "f" (initState baseContext) 10 (by decide)).2.2.2.2
      (by rfl) (by rfl)


/-! ## Claim C4 -/

/-- C4: overrides short-circuit every key kind. A chain key overridden
under its fully qualified name and an environment key overridden under
its qualified name render to the override string verbatim with
sensitive = false, and the final state is exactly the incremented
input state: the database and the effect log are untouched, so the
chain's request/command/file/prompt source is never executed and no
environment read happens. A field override is used in place of the
profile (its value parsed as a template and re-rendered, per the field
rule). -/
theorem c4_override_short_circuit (ctx : TemplateContext) (id v : String)
    (st : RenderState) (fuel : Nat) (hlt : st.count < RECURSION_LIMIT) :
    (lookupOverride ctx (String.mk chainsDot ++ id) = some v →
        renderKeyFuel ctx (fuel + 1) (TemplateKey.chain id) st =
          (TemplateChunk.rendered v false, st.incr)) ∧
      (lookupOverride ctx (String.mk envDot ++ id) = some v →
        renderKeyFuel ctx (fuel + 1) (TemplateKey.environment id) st =
          (TemplateChunk.rendered v false, st.incr)) ∧
      (∀ t s st2, lookupOverride ctx id = some v → Template.parse v = some t →
        renderNestedWith (fun k2 s2 => renderKeyFuel ctx fuel k2 s2) t st.incr =
          (Except.ok s, st2) →
        renderKeyFuel ctx (fuel + 1) (TemplateKey.field id) st =
          (TemplateChunk.rendered s false, st2)) := by
  refine ⟨?_, ?_, ?_⟩
  · intro hov
    rw [renderKeyFuel_step ctx fuel _ st hlt]
    show dispatchKey _ ctx (TemplateKey.chain id) st.incr = _
    unfold dispatchKey
    simp only [hov]
  · intro hov
    rw [renderKeyFuel_step ctx fuel _ st hlt]
    show dispatchKey _ ctx (TemplateKey.environment id) st.incr = _
    unfold dispatchKey
    simp only [hov]
  · intro t s st2 hov hparse hnest
    rw [renderKeyFuel_step ctx fuel _ st hlt]
    show renderFieldWith _ ctx id st.incr = _
    unfold renderFieldWith
    simp only [hov, hparse, hnest]

/-- A concrete context for the C4 witness: all three override kinds
are set, a chain with a command source exists under the overridden
chain name, and the process environment holds a conflicting value, so
the witness also shows that neither is consulted. -/
def c4ctx : TemplateContext :=
  { baseContext with
      overrides :=
        [(String.mk chainsDot ++ "c1", "ov1"),
         (String.mk envDot ++ "E1", "ov2"),
         ("f", "ov3")]
      collection :=
        ⟨[], [⟨"c1", ChainSource.command [Template.raw "echo"] Option.none,
            Option.none, Option.none, ChainOutputTrim.none, true⟩], []⟩
      env := fun _ => EnvValue.present "fromenv"
      runCommand := fun _ _ => Except.ok "fromcmd" }

/-- Witness for C4: at the concrete context, every overridden key
renders to its override with no effects logged and no database change
(the final state is exactly the incremented initial state). -/
theorem c4_override_short_circuit_witness :
    renderKeyFuel c4ctx 11 (TemplateKey.chain "c1") (initState c4ctx) =
        (TemplateChunk.rendered "ov1" false, (initState c4ctx).incr) ∧
      renderKeyFuel c4ctx 11 (TemplateKey.environment "E1") (initState c4ctx) =
        (TemplateChunk.rendered "ov2" false, (initState c4ctx).incr) ∧
      renderKeyFuel c4ctx 11 (TemplateKey.field "f") (initState c4ctx) =
        (TemplateChunk.rendered "ov3" false, (initState c4ctx).incr) := by
  refine ⟨?_, ?_, ?_⟩
  · exact (c4_override_short_circuit c4ctx "c1" "ov1" (initState c4ctx) 10 (by decide)).1
      (by rfl)
  · exact (c4_override_short_circuit c4ctx "E1" "ov2" (initState c4ctx) 10 (by decide)).2.1
      (by rfl)
  · exact (c4_override_short_circuit c4ctx "f" "ov3" (initState c4ctx) 10 (by decide)).2.2
      ⟨[TemplateInputChunk.raw "ov3"]⟩ "ov3" (initState c4ctx).incr
      (by rfl) (by rfl) (by rfl)


/-! ## Claim C6 -/

/-- C6 amended: rendering is a pure function of the full template
context. Two renders agreeing on every context component — collection,
selected profile, overrides, database contents, process environment,
prompter responses, and additionally the HTTP engine, command and file
oracles, the clock, and the initial recursion count — produce identical
chunk lists. The sequential model expands chunks in source order. -/
theorem c6_render_deterministic (t : Template) (ctx1 ctx2 : TemplateContext)
    (h1 : ctx1.collection = ctx2.collection)
    (h2 : ctx1.selectedProfile = ctx2.selectedProfile)
    (h3 : ctx1.httpEngine = ctx2.httpEngine)
    (h4 : ctx1.database = ctx2.database)
    (h5 : ctx1.overrides = ctx2.overrides)
    (h6 : ctx1.prompter = ctx2.prompter)
    (h7 : ctx1.env = ctx2.env)
    (h8 : ctx1.runCommand = ctx2.runCommand)
    (h9 : ctx1.readFile = ctx2.readFile)
    (h10 : ctx1.now = ctx2.now)
    (h11 : ctx1.recursionCount = ctx2.recursionCount) :
    Template.renderChunks t ctx1 = Template.renderChunks t ctx2 := by
  cases ctx1
  cases ctx2
  simp only at h1 h2 h3 h4 h5 h6 h7 h8 h9 h10 h11
  subst h1; subst h2; subst h3; subst h4; subst h5; subst h6
  subst h7; subst h8; subst h9; subst h10; subst h11
  rfl

/-- The chain, collection, contexts and template of the C6
counterexample: a chain that always triggers a fresh request, rendered
once with no HTTP engine and once with one. -/
def c6chain : Chain :=
  ⟨"c", ChainSource.request "r" ChainRequestTrigger.always ChainRequestSection.body,
    Option.none, Option.none, ChainOutputTrim.none, false⟩

def c6collection : Collection := ⟨[], [c6chain], ["r"]⟩

def c6ctxNoEngine : TemplateContext := { baseContext with collection := c6collection }

def c6ctxEngine : TemplateContext :=
  { c6ctxNoEngine with httpEngine := some (fun _ => HttpResult.success ⟨"hello", [], 0⟩) }

def c6template : Template := ⟨[TemplateInputChunk.key (TemplateKey.chain "c")]⟩

/-- C6 counterexample: the two contexts agree on the collection,
selected profile, overrides, database contents, process environment and
prompter responses (the six components the claim lists), both start
with recursion counter 0, yet their renders differ — one fails with
Trigger/NotAllowed, the other renders the fresh response — because they
differ in HTTP engine availability, which the claim does not fix. -/
theorem c6_counterexample :
    c6ctxNoEngine.collection = c6ctxEngine.collection ∧
      c6ctxNoEngine.selectedProfile = c6ctxEngine.selectedProfile ∧
      c6ctxNoEngine.overrides = c6ctxEngine.overrides ∧
      c6ctxNoEngine.database = c6ctxEngine.database ∧
      c6ctxNoEngine.env = c6ctxEngine.env ∧
      c6ctxNoEngine.prompter = c6ctxEngine.prompter ∧
      c6ctxNoEngine.recursionCount = 0 ∧
      c6ctxEngine.recursionCount = 0 ∧
      Template.renderChunks c6template c6ctxNoEngine =
        [TemplateChunk.error (TemplateError.chain "c"
          (ChainError.trigger "r" TriggeredRequestError.notAllowed))] ∧
      Template.renderChunks c6template c6ctxEngine =
        [TemplateChunk.rendered "hello" false] ∧
      Template.renderChunks c6template c6ctxNoEngine ≠
        Template.renderChunks c6template c6ctxEngine := by
  refine ⟨rfl, rfl, rfl, rfl, rfl, rfl, rfl, rfl, by rfl, by rfl, by decide⟩

/-- Witness for the amended C6 at two concrete contexts with equal
components. -/
theorem c6_render_deterministic_witness :
    Template.renderChunks c6template c6ctxEngine =
      Template.renderChunks c6template { c6ctxEngine with now := 0 } :=
  c6_render_deterministic c6template c6ctxEngine { c6ctxEngine with now := 0 }
    rfl rfl rfl rfl rfl rfl rfl rfl rfl rfl rfl


/-! ## Claim C9 -/

theorem applyTrim_empty (tr : ChainOutputTrim) : applyTrim tr "" = "" := by
  cases tr <;> rfl

/-- C9 amended: for an Environment key that is not overridden, a
missing variable renders as the empty string (not an error), a present
variable renders to its value, and only non-UTF-8 content fails, with
EnvironmentVariable{variable, cause}; in every case the counter
advances by one and one environment read is logged. For an env chain
source (not overridden), missing and non-UTF-8 variables both render
as the empty string without error: a chain resolves through ChainError,
which has no variant able to carry an environment variable failure. -/
theorem c9_environment_lookup (ctx : TemplateContext) (id : String) (st : RenderState)
    (fuel : Nat) (hlt : st.count < RECURSION_LIMIT)
    (hov : lookupOverride ctx (String.mk envDot ++ id) = none) :
    (ctx.env id = EnvValue.absent →
        renderKeyFuel ctx (fuel + 1) (TemplateKey.environment id) st =
          (TemplateChunk.rendered "" false,
            RenderState.mk (st.count + 1) st.db (st.effects ++ [Effect.envRead id]))) ∧
      (∀ s, ctx.env id = EnvValue.present s →
        renderKeyFuel ctx (fuel + 1) (TemplateKey.environment id) st =
          (TemplateChunk.rendered s false,
            RenderState.mk (st.count + 1) st.db (st.effects ++ [Effect.envRead id]))) ∧
      (ctx.env id = EnvValue.notUnicode →
        renderKeyFuel ctx (fuel + 1) (TemplateKey.environment id) st =
          (TemplateChunk.error (TemplateError.environmentVariable id VarError.notUnicode),
            RenderState.mk (st.count + 1) st.db (st.effects ++ [Effect.envRead id]))) ∧
      (∀ (kr : KeyRenderer) (cid : String) (vT : Template) (tr : ChainOutputTrim)
          (sens : Bool) (v : String) (st2 : RenderState),
        renderNestedWith kr vT st = (Except.ok v, st2) →
        (ctx.env v = EnvValue.absent ∨ ctx.env v = EnvValue.notUnicode) →
        chainEngineWith kr ctx
            ⟨cid, ChainSource.environment vT, Option.none, Option.none, tr, sens⟩ st =
          (Except.ok "",
            RenderState.mk st2.count st2.db (st2.effects ++ [Effect.envRead v]))) := by
  refine ⟨?_, ?_, ?_, ?_⟩
  · intro henv
    rw [renderKeyFuel_step ctx fuel _ st hlt]
    show dispatchKey _ ctx (TemplateKey.environment id) st.incr = _
    unfold dispatchKey
    simp only [hov, henv]
    rfl
  · intro s henv
    rw [renderKeyFuel_step ctx fuel _ st hlt]
    show dispatchKey _ ctx (TemplateKey.environment id) st.incr = _
    unfold dispatchKey
    simp only [hov, henv]
    rfl
  · intro henv
    rw [renderKeyFuel_step ctx fuel _ st hlt]
    show dispatchKey _ ctx (TemplateKey.environment id) st.incr = _
    unfold dispatchKey
    simp only [hov, henv]
    rfl
  · intro kr cid vT tr sens v st2 hnest henv
    unfold chainEngineWith chainSourceBytes
    simp only [hnest]
    rcases henv with henv | henv <;>
      simp only [henv, applySelector, applyTrim_empty]

/-- The chain and context of the C9 counterexample: an env chain
source whose variable holds non-UTF-8 content. -/
def c9chain : Chain :=
  ⟨"c", ChainSource.environment (Template.raw "V"),
    Option.none, Option.none, ChainOutputTrim.none, false⟩

def c9ctx : TemplateContext :=
  { baseContext with
      collection := ⟨[], [c9chain], []⟩
      env := fun _ => EnvValue.notUnicode }

/-- C9 counterexample: a chain with an env source reading a non-UTF-8
variable renders successfully to the empty string; the claim predicted
a failure with EnvironmentVariable{variable, cause}, which the chain
error type cannot even carry. -/
theorem c9_counterexample :
    Template.renderChunks ⟨[TemplateInputChunk.key (TemplateKey.chain "c")]⟩ c9ctx =
      [TemplateChunk.rendered "" false] := by
  rfl

/-- Witness for the amended C9 at concrete contexts: a missing
variable renders empty, a non-UTF-8 variable fails the env key with
EnvironmentVariable, and the env chain source renders the non-UTF-8
variable as the empty string. -/
theorem c9_environment_lookup_witness :
    renderKeyFuel baseContext 11 (TemplateKey.environment "E") (initState baseContext) =
        (TemplateChunk.rendered "" false,
          RenderState.mk 1 baseContext.database [Effect.envRead "E"]) ∧
      renderKeyFuel c9ctx 11 (TemplateKey.environment "V") (initState c9ctx) =
        (TemplateChunk.error (TemplateError.environmentVariable "V" VarError.notUnicode),
          RenderState.mk 1 c9ctx.database [Effect.envRead "V"]) ∧
      chainEngineWith (topKeyRenderer c9ctx) c9ctx c9chain (initState c9ctx) =
        (Except.ok "", RenderState.mk 0 c9ctx.database [Effect.envRead "V"]) := by
  refine ⟨?_, ?_, ?_⟩
  · exact (c9_environment_lookup baseContext "E" (initState baseContext) 10
      (by decide) (by rfl)).1 (by rfl)
  · exact (c9_environment_lookup c9ctx "V" (initState c9ctx) 10
      (by decide) (by rfl)).2.2.1 (by rfl)
  · exact (c9_environment_lookup c9ctx "V" (initState c9ctx) 10
      (by decide) (by rfl)).2.2.2 (topKeyRenderer c9ctx) "c" (Template.raw "V")
      ChainOutputTrim.none false "V" (initState c9ctx) (by rfl) (Or.inr (by rfl))


/-! ## Claim C5 -/

theorem renderFieldWith_sensitive_false (kr : KeyRenderer) (ctx : TemplateContext)
    (id : String) (st : RenderState) (c : TemplateChunk) (st2 : RenderState)
    (h : renderFieldWith kr ctx id st = (c, st2)) (v : String) :
    c ≠ TemplateChunk.rendered v true := by
  intro hc
  subst hc
  unfold renderFieldWith at h
  repeat' split at h
  all_goals simp_all

/-- The shape a key must have for its rendered chunk to be sensitive:
a chain key, not overridden, whose chain exists and carries
sensitive = true. -/
def SensitiveKeyShape (ctx : TemplateContext) (k : TemplateKey) : Prop :=
  ∃ id ch, k = TemplateKey.chain id ∧
    lookupOverride ctx (String.mk chainsDot ++ id) = none ∧
    ctx.collection.chains.find? (fun q => q.id == id) = some ch ∧
    ch.sensitive = true

theorem dispatchKey_sensitive (kr : KeyRenderer) (ctx : TemplateContext)
    (k : TemplateKey) (st : RenderState) (c : TemplateChunk) (st2 : RenderState)
    (h : dispatchKey kr ctx k st = (c, st2)) (v : String)
    (hc : c = TemplateChunk.rendered v true) : SensitiveKeyShape ctx k := by
  subst hc
  match k with
  | TemplateKey.field id =>
    exact absurd rfl (renderFieldWith_sensitive_false kr ctx id st _ st2 h v)
  | TemplateKey.chain id =>
    simp only [dispatchKey] at h
    match hov : lookupOverride ctx (String.mk chainsDot ++ id) with
    | some w => simp only [hov] at h; simp_all
    | none =>
      simp only [hov] at h
      match hfind : ctx.collection.chains.find? (fun q => q.id == id) with
      | none => simp only [hfind] at h; simp_all
      | some ch =>
        simp only [hfind] at h
        match heng : chainEngineWith kr ctx ch st with
        | (Except.ok s, st3) =>
          simp only [heng] at h
          simp only [Prod.mk.injEq, TemplateChunk.rendered.injEq] at h
          exact ⟨id, ch, rfl, hov, hfind, h.1.2⟩
        | (Except.error e, st3) => simp only [heng] at h; simp_all
  | TemplateKey.environment id =>
    simp only [dispatchKey] at h
    repeat' split at h
    all_goals simp_all

theorem renderKeyFuel_sensitive (ctx : TemplateContext) (fuel : Nat)
    (k : TemplateKey) (st : RenderState) (c : TemplateChunk) (st2 : RenderState)
    (h : renderKeyFuel ctx fuel k st = (c, st2)) (v : String)
    (hc : c = TemplateChunk.rendered v true) : SensitiveKeyShape ctx k := by
  match fuel with
  | 0 =>
    rw [renderKeyFuel] at h
    rw [hc] at h
    simp_all
  | fuel + 1 =>
    rw [renderKeyFuel] at h
    split at h
    · rw [hc] at h; simp_all
    · exact dispatchKey_sensitive _ ctx k st.incr c st2 h v hc

/-- Forward direction at the dispatcher: a non-overridden chain key
whose chain is marked sensitive emits, whenever its output is a
Rendered chunk at all, one with sensitive = true. -/
theorem dispatchKey_shape_sensitive (kr : KeyRenderer) (ctx : TemplateContext)
    (k : TemplateKey) (st : RenderState) (c : TemplateChunk) (st2 : RenderState)
    (h : dispatchKey kr ctx k st = (c, st2)) (v : String) (b : Bool)
    (hc : c = TemplateChunk.rendered v b) (hs : SensitiveKeyShape ctx k) : b = true := by
  obtain ⟨id, ch, rfl, hov, hfind, hsens⟩ := hs
  simp only [dispatchKey, hov, hfind] at h
  match heng : chainEngineWith kr ctx ch st with
  | (Except.ok s, st3) =>
    simp only [heng] at h
    rw [hc] at h
    simp only [Prod.mk.injEq, TemplateChunk.rendered.injEq] at h
    rw [← h.1.2]
    exact hsens
  | (Except.error e, st3) =>
    simp only [heng] at h
    rw [hc] at h
    simp at h

theorem renderKeyFuel_shape_sensitive (ctx : TemplateContext) (fuel : Nat)
    (k : TemplateKey) (st : RenderState) (c : TemplateChunk) (st2 : RenderState)
    (h : renderKeyFuel ctx fuel k st = (c, st2)) (v : String) (b : Bool)
    (hc : c = TemplateChunk.rendered v b) (hs : SensitiveKeyShape ctx k) : b = true := by
  match fuel with
  | 0 =>
    rw [renderKeyFuel] at h
    rw [hc] at h
    simp at h
  | fuel + 1 =>
    rw [renderKeyFuel] at h
    split at h
    · rw [hc] at h; simp at h
    · exact dispatchKey_shape_sensitive _ ctx k st.incr c st2 h v b hc hs

/-- The per-chunk relation of C5: raw input chunks pass through as raw
output chunks; an output chunk rendered with sensitive = true can only
come from a non-overridden chain key whose chain is marked sensitive;
and for every key input whose output is a Rendered chunk, the chunk's
sensitive flag is true if and only if the key is a non-overridden
chain key whose chain is marked sensitive. -/
def SensOK (ctx : TemplateContext) (cin : TemplateInputChunk) (cout : TemplateChunk) : Prop :=
  (∀ s, cin = TemplateInputChunk.raw s → cout = TemplateChunk.raw s) ∧
    (∀ v, cout = TemplateChunk.rendered v true →
      ∃ k, cin = TemplateInputChunk.key k ∧ SensitiveKeyShape ctx k) ∧
    (∀ k, cin = TemplateInputChunk.key k →
      ∀ v b, cout = TemplateChunk.rendered v b → (b = true ↔ SensitiveKeyShape ctx k))

theorem renderChunksWith_sensitive (kr : KeyRenderer) (ctx : TemplateContext)
    (hkr : ∀ k st c st2, kr k st = (c, st2) → ∀ v,
      c = TemplateChunk.rendered v true → SensitiveKeyShape ctx k)
    (hkr2 : ∀ k st c st2, kr k st = (c, st2) → ∀ v b,
      c = TemplateChunk.rendered v b → SensitiveKeyShape ctx k → b = true) :
    ∀ (chunks : List TemplateInputChunk) (st : RenderState),
      List.Forall₂ (SensOK ctx) chunks (renderChunksWith kr chunks st).1 := by
  intro chunks
  induction chunks with
  | nil => intro st; exact List.Forall₂.nil
  | cons cin rest ih =>
    intro st
    match cin with
    | TemplateInputChunk.raw s =>
      simp only [renderChunksWith]
      refine List.Forall₂.cons ⟨fun s2 hs => ?_, fun v hv => ?_, fun k hk => ?_⟩ (ih st)
      · obtain rfl := TemplateInputChunk.raw.inj hs
        rfl
      · exact absurd hv (by simp)
      · exact absurd hk (by simp)
    | TemplateInputChunk.key k =>
      simp only [renderChunksWith]
      refine List.Forall₂.cons
        ⟨fun s2 hs => absurd hs (by simp), fun v hv => ?_, fun k2 hk v b hvb => ?_⟩
        (ih (kr k st).2)
      · exact ⟨k, rfl, hkr k st _ _ rfl v hv⟩
      · obtain rfl := TemplateInputChunk.key.inj hk
        constructor
        · intro hb
          subst hb
          exact hkr k st _ _ rfl v hvb
        · intro hs
          exact hkr2 k st _ _ rfl v b hvb hs

/-- C5: in every rendered chunk list, output chunks correspond
one-to-one (in order) with input chunks; raw inputs emit raw outputs
(which carry no sensitive flag at all), and for every key input whose
output is a Rendered chunk, the chunk carries sensitive = true if and
only if the key is a non-overridden chain key whose chain has
sensitive = true. In particular a sensitive chain's successful output
always carries sensitive = true, and field and environment keys and
overridden chains always emit sensitive = false. -/
theorem c5_sensitive_propagation (t : Template) (ctx : TemplateContext) :
    List.Forall₂ (SensOK ctx) t.chunks (Template.renderChunks t ctx) :=
  renderChunksWith_sensitive (topKeyRenderer ctx) ctx
    (fun k st c st2 h v hc => renderKeyFuel_sensitive ctx (RECURSION_LIMIT + 1) k st c st2 h v hc)
    (fun k st c st2 h v b hc hs =>
      renderKeyFuel_shape_sensitive ctx (RECURSION_LIMIT + 1) k st c st2 h v b hc hs)
    t.chunks (initState ctx)


/-! ## Claim C1: recursion guard -/

mutual
/-- Does a template error contain RecursionLimit anywhere in its cause
chain? -/
def errHasRecLimit : TemplateError → Bool
  | TemplateError.recursionLimit => true
  | TemplateError.fieldNested _ e => errHasRecLimit e
  | TemplateError.chain _ ce => chainErrHasRecLimit ce
  | _ => false

/-- Does a chain error contain RecursionLimit anywhere in its cause
chain? -/
def chainErrHasRecLimit : ChainError → Bool
  | ChainError.nested _ e => errHasRecLimit e
  | _ => false
end

/-- Does a rendered chunk carry a RecursionLimit error (possibly
nested)? -/
def chunkHasRecLimit : TemplateChunk → Bool
  | TemplateChunk.error e => errHasRecLimit e
  | _ => false

/-- The invariant a key renderer must satisfy from states whose counter
is at least `lo`: the counter strictly increases, and whenever the
final counter stays at or below the limit the produced chunk holds no
RecursionLimit error. -/
def KrOK (kr : KeyRenderer) (lo : Nat) : Prop :=
  ∀ k st, lo ≤ st.count →
    st.count < (kr k st).2.count ∧
      ((kr k st).2.count ≤ RECURSION_LIMIT → chunkHasRecLimit (kr k st).1 = false)

theorem flattenChunks_noRL (out : List TemplateChunk)
    (hall : ∀ c ∈ out, chunkHasRecLimit c = false) :
    ∀ e, flattenChunks out = Except.error e → errHasRecLimit e = false := by
  induction out with
  | nil => intro e he; simp [flattenChunks] at he
  | cons c rest ih =>
    intro e he
    match c with
    | TemplateChunk.raw s =>
      simp only [flattenChunks] at he
      match hf : flattenChunks rest with
      | Except.ok v => rw [hf] at he; simp [Except.map] at he
      | Except.error e2 =>
        rw [hf] at he
        simp only [Except.map] at he
        rw [← Except.error.inj he]
        exact ih (fun c2 hc2 => hall c2 (List.mem_cons_of_mem _ hc2)) e2 hf
    | TemplateChunk.rendered v sflag =>
      simp only [flattenChunks] at he
      match hf : flattenChunks rest with
      | Except.ok w => rw [hf] at he; simp [Except.map] at he
      | Except.error e2 =>
        rw [hf] at he
        simp only [Except.map] at he
        rw [← Except.error.inj he]
        exact ih (fun c2 hc2 => hall c2 (List.mem_cons_of_mem _ hc2)) e2 hf
    | TemplateChunk.error e0 =>
      simp only [flattenChunks] at he
      obtain rfl := Except.error.inj he
      simpa [chunkHasRecLimit] using hall (TemplateChunk.error e0) (by simp)

theorem renderChunksWith_ok (kr : KeyRenderer) (lo : Nat) (hkr : KrOK kr lo) :
    ∀ (chunks : List TemplateInputChunk) (st : RenderState), lo ≤ st.count →
      st.count ≤ (renderChunksWith kr chunks st).2.count ∧
        ((renderChunksWith kr chunks st).2.count ≤ RECURSION_LIMIT →
          ∀ c ∈ (renderChunksWith kr chunks st).1, chunkHasRecLimit c = false) := by
  intro chunks
  induction chunks with
  | nil =>
    intro st hlo
    refine ⟨Nat.le_refl _, fun _ c hc => ?_⟩
    simp [renderChunksWith] at hc
  | cons cin rest ih =>
    intro st hlo
    match cin with
    | TemplateInputChunk.raw s =>
      simp only [renderChunksWith]
      obtain ⟨hm, hok⟩ := ih st hlo
      refine ⟨hm, fun hle c hc => ?_⟩
      simp only [List.mem_cons] at hc
      rcases hc with rfl | hc
      · rfl
      · exact hok hle c hc
    | TemplateInputChunk.key k =>
      simp only [renderChunksWith]
      obtain ⟨hk1, hk2⟩ := hkr k st hlo
      obtain ⟨hm, hok⟩ := ih (kr k st).2 (Nat.le_trans hlo (Nat.le_of_lt hk1))
      refine ⟨Nat.le_trans (Nat.le_of_lt hk1) hm, fun hle c hc => ?_⟩
      simp only [List.mem_cons] at hc
      rcases hc with rfl | hc
      · exact hk2 (Nat.le_trans hm hle)
      · exact hok hle c hc

theorem renderNestedWith_ok (kr : KeyRenderer) (lo : Nat) (hkr : KrOK kr lo) :
    ∀ (t : Template) (st : RenderState), lo ≤ st.count →
      st.count ≤ (renderNestedWith kr t st).2.count ∧
        ((renderNestedWith kr t st).2.count ≤ RECURSION_LIMIT →
          ∀ e, (renderNestedWith kr t st).1 = Except.error e → errHasRecLimit e = false) := by
  intro t st hlo
  obtain ⟨hm, hok⟩ := renderChunksWith_ok kr lo hkr t.chunks st hlo
  refine ⟨hm, fun hle e he => ?_⟩
  exact flattenChunks_noRL _ (hok hle) e he


theorem chainRequest_ok (ctx : TemplateContext) (recipe : String)
    (trigger : ChainRequestTrigger) (st : RenderState) :
    (chainRequest ctx recipe trigger st).2.count = st.count ∧
      ∀ e, (chainRequest ctx recipe trigger st).1 = Except.error e →
        chainErrHasRecLimit e = false := by
  refine ⟨?_, ?_⟩
  · unfold chainRequest
    repeat' (first | split | simp only [])
  · intro e he
    unfold chainRequest at he
    repeat' (first | split at he | simp only [] at he)
    all_goals first | (injection he with he2; subst he2; rfl) | simp_all

theorem renderOptionalWith_ok (kr : KeyRenderer) (lo : Nat) (hkr : KrOK kr lo)
    (field : String) (ot : Option Template) (st : RenderState) (hlo : lo ≤ st.count) :
    st.count ≤ (renderOptionalWith kr field ot st).2.count ∧
      ((renderOptionalWith kr field ot st).2.count ≤ RECURSION_LIMIT →
        ∀ e, (renderOptionalWith kr field ot st).1 = Except.error e →
          chainErrHasRecLimit e = false) := by
  match ot with
  | Option.none =>
    refine ⟨Nat.le_refl _, fun _ e he => ?_⟩
    simp [renderOptionalWith] at he
  | some t =>
    obtain ⟨hm, hok⟩ := renderNestedWith_ok kr lo hkr t st hlo
    simp only [renderOptionalWith]
    match h : renderNestedWith kr t st with
    | (Except.ok s, st2) =>
      simp only []
      rw [h] at hm
      refine ⟨hm, fun _ e he => ?_⟩
      exact Except.noConfusion he
    | (Except.error e2, st2) =>
      simp only []
      rw [h] at hm hok
      refine ⟨hm, fun hle e he => ?_⟩
      injection he with he2
      rw [← he2]
      simpa [chainErrHasRecLimit] using hok hle e2 rfl

theorem renderCommandArgs_ok (kr : KeyRenderer) (lo : Nat) (hkr : KrOK kr lo) :
    ∀ (args : List Template) (i : Nat) (st : RenderState), lo ≤ st.count →
      st.count ≤ (renderCommandArgs kr args i st).2.count ∧
        ((renderCommandArgs kr args i st).2.count ≤ RECURSION_LIMIT →
          ∀ e, (renderCommandArgs kr args i st).1 = Except.error e →
            chainErrHasRecLimit e = false) := by
  intro args
  induction args with
  | nil =>
    intro i st hlo
    refine ⟨Nat.le_refl _, fun _ e he => ?_⟩
    simp [renderCommandArgs] at he
  | cons t rest ih =>
    intro i st hlo
    obtain ⟨hm, hok⟩ := renderNestedWith_ok kr lo hkr t st hlo
    simp only [renderCommandArgs]
    match h : renderNestedWith kr t st with
    | (Except.error e2, st2) =>
      simp only []
      rw [h] at hm hok
      refine ⟨hm, fun hle e he => ?_⟩
      injection he with he2
      rw [← he2]
      simpa [chainErrHasRecLimit] using hok hle e2 rfl
    | (Except.ok s, st2) =>
      simp only []
      rw [h] at hm hok
      obtain ⟨hm2, hok2⟩ := ih (i + 1) st2 (Nat.le_trans hlo hm)
      match h2 : renderCommandArgs kr rest (i + 1) st2 with
      | (Except.ok l, st3) =>
        simp only []
        rw [h2] at hm2
        refine ⟨Nat.le_trans hm hm2, fun _ e he => ?_⟩
        exact Except.noConfusion he
      | (Except.error e2, st3) =>
        simp only []
        rw [h2] at hm2 hok2
        refine ⟨Nat.le_trans hm hm2, fun hle e he => ?_⟩
        injection he with he2
        rw [← he2]
        exact hok2 hle e2 rfl


theorem applySelector_noRL (sel : Option Selector) (ct : Option ContentType)
    (bytes : String) (e : ChainError) (h : applySelector sel ct bytes = Except.error e) :
    chainErrHasRecLimit e = false := by
  unfold applySelector at h
  repeat' split at h
  all_goals first | (injection h with h2; subst h2; rfl) | simp_all

theorem chainSourceBytes_ok (kr : KeyRenderer) (lo : Nat) (hkr : KrOK kr lo)
    (ctx : TemplateContext) (ch : Chain) (st : RenderState) (hlo : lo ≤ st.count) :
    st.count ≤ (chainSourceBytes kr ctx ch st).2.count ∧
      ((chainSourceBytes kr ctx ch st).2.count ≤ RECURSION_LIMIT →
        ∀ e, (chainSourceBytes kr ctx ch st).1 = Except.error e →
          chainErrHasRecLimit e = false) := by
  unfold chainSourceBytes
  match hs : ch.source with
  | ChainSource.request recipe trigger sect =>
    simp only []
    obtain ⟨hc1, hc2⟩ := chainRequest_ok ctx recipe trigger st
    match hq : chainRequest ctx recipe trigger st with
    | (Except.error e2, st2) =>
      rw [hq] at hc1 hc2
      simp only [hq]
      exact ⟨Nat.le_of_eq hc1.symm, fun _ e he => by
        injection he with he2
        rw [← he2]
        exact hc2 e2 rfl⟩
    | (Except.ok ex, st2) =>
      rw [hq] at hc1
      simp only [hq]
      match sect with
      | ChainRequestSection.body =>
        exact ⟨Nat.le_of_eq hc1.symm, fun _ e he => Except.noConfusion he⟩
      | ChainRequestSection.header hname =>
        match hh : lookupHeader ex.headers hname with
        | some v =>
          simp only [hh]
          exact ⟨Nat.le_of_eq hc1.symm, fun _ e he => Except.noConfusion he⟩
        | Option.none =>
          simp only [hh]
          exact ⟨Nat.le_of_eq hc1.symm, fun _ e he => by
            injection he with he2
            rw [← he2]
            rfl⟩
  | ChainSource.command cmd stdinT =>
    simp only []
    by_cases hemp : cmd.isEmpty
    · rw [if_pos hemp]
      exact ⟨Nat.le_refl _, fun _ e he => by
        injection he with he2
        rw [← he2]
        rfl⟩
    · rw [if_neg hemp]
      obtain ⟨ha1, ha2⟩ := renderCommandArgs_ok kr lo hkr cmd 0 st hlo
      match hargs : renderCommandArgs kr cmd 0 st with
      | (Except.error e2, st2) =>
        rw [hargs] at ha1 ha2
        simp only [hargs]
        exact ⟨ha1, fun hle e he => by
          injection he with he2
          rw [← he2]
          exact ha2 hle e2 rfl⟩
      | (Except.ok args, st2) =>
        rw [hargs] at ha1 ha2
        simp only [hargs]
        obtain ⟨hb1, hb2⟩ := renderOptionalWith_ok kr lo hkr "stdin" stdinT st2
          (Nat.le_trans hlo ha1)
        match hstdin : renderOptionalWith kr "stdin" stdinT st2 with
        | (Except.error e2, st3) =>
          rw [hstdin] at hb1 hb2
          simp only [hstdin]
          exact ⟨Nat.le_trans ha1 hb1, fun hle e he => by
            injection he with he2
            rw [← he2]
            exact hb2 hle e2 rfl⟩
        | (Except.ok stdinData, st3) =>
          rw [hstdin] at hb1
          simp only [hstdin]
          match hrun : ctx.runCommand args stdinData with
          | Except.ok out =>
            simp only [hrun]
            exact ⟨Nat.le_trans ha1 hb1, fun _ e he => Except.noConfusion he⟩
          | Except.error m =>
            simp only [hrun]
            exact ⟨Nat.le_trans ha1 hb1, fun _ e he => by
              injection he with he2
              rw [← he2]
              rfl⟩
  | ChainSource.file pathT =>
    simp only []
    obtain ⟨h1, h2⟩ := renderNestedWith_ok kr lo hkr pathT st hlo
    match hp : renderNestedWith kr pathT st with
    | (Except.error e2, st2) =>
      rw [hp] at h1 h2
      simp only [hp]
      exact ⟨h1, fun hle e he => by
        injection he with he2
        rw [← he2]
        simpa [chainErrHasRecLimit] using h2 hle e2 rfl⟩
    | (Except.ok p, st2) =>
      rw [hp] at h1
      simp only [hp]
      match hr : ctx.readFile p with
      | Except.ok content =>
        simp only [hr]
        exact ⟨h1, fun _ e he => Except.noConfusion he⟩
      | Except.error m =>
        simp only [hr]
        exact ⟨h1, fun _ e he => by
          injection he with he2
          rw [← he2]
          rfl⟩
  | ChainSource.environment varT =>
    simp only []
    obtain ⟨h1, h2⟩ := renderNestedWith_ok kr lo hkr varT st hlo
    match hp : renderNestedWith kr varT st with
    | (Except.error e2, st2) =>
      rw [hp] at h1 h2
      simp only [hp]
      exact ⟨h1, fun hle e he => by
        injection he with he2
        rw [← he2]
        simpa [chainErrHasRecLimit] using h2 hle e2 rfl⟩
    | (Except.ok v, st2) =>
      rw [hp] at h1
      simp only [hp]
      match he2 : ctx.env v with
      | EnvValue.present s =>
        simp only [he2]
        exact ⟨h1, fun _ e he => Except.noConfusion he⟩
      | EnvValue.absent =>
        simp only [he2]
        exact ⟨h1, fun _ e he => Except.noConfusion he⟩
      | EnvValue.notUnicode =>
        simp only [he2]
        exact ⟨h1, fun _ e he => Except.noConfusion he⟩
  | ChainSource.prompt messageT defaultT =>
    simp only []
    obtain ⟨h1, h2⟩ := renderOptionalWith_ok kr lo hkr "message" messageT st hlo
    match hm : renderOptionalWith kr "message" messageT st with
    | (Except.error e2, st2) =>
      rw [hm] at h1 h2
      simp only [hm]
      exact ⟨h1, fun hle e he => by
        injection he with he3
        rw [← he3]
        exact h2 hle e2 rfl⟩
    | (Except.ok msg, st2) =>
      rw [hm] at h1
      simp only [hm]
      obtain ⟨h3, h4⟩ := renderOptionalWith_ok kr lo hkr "default" defaultT st2
        (Nat.le_trans hlo h1)
      match hd : renderOptionalWith kr "default" defaultT st2 with
      | (Except.error e2, st3) =>
        rw [hd] at h3 h4
        simp only [hd]
        exact ⟨Nat.le_trans h1 h3, fun hle e he => by
          injection he with he3
          rw [← he3]
          exact h4 hle e2 rfl⟩
      | (Except.ok defv, st3) =>
        rw [hd] at h3
        simp only [hd]
        match hpr : ctx.prompter ⟨msg, defv, ch.sensitive⟩ with
        | some answer =>
          simp only [hpr]
          exact ⟨Nat.le_trans h1 h3, fun _ e he => Except.noConfusion he⟩
        | Option.none =>
          simp only [hpr]
          match defv with
          | some d =>
            exact ⟨Nat.le_trans h1 h3, fun _ e he => Except.noConfusion he⟩
          | Option.none =>
            exact ⟨Nat.le_trans h1 h3, fun _ e he => by
              injection he with he3
              rw [← he3]
              rfl⟩

theorem chainEngineWith_ok (kr : KeyRenderer) (lo : Nat) (hkr : KrOK kr lo)
    (ctx : TemplateContext) (ch : Chain) (st : RenderState) (hlo : lo ≤ st.count) :
    st.count ≤ (chainEngineWith kr ctx ch st).2.count ∧
      ((chainEngineWith kr ctx ch st).2.count ≤ RECURSION_LIMIT →
        ∀ e, (chainEngineWith kr ctx ch st).1 = Except.error e →
          chainErrHasRecLimit e = false) := by
  obtain ⟨h1, h2⟩ := chainSourceBytes_ok kr lo hkr ctx ch st hlo
  unfold chainEngineWith
  match hb : chainSourceBytes kr ctx ch st with
  | (Except.error e2, st2) =>
    rw [hb] at h1 h2
    simp only [hb]
    exact ⟨h1, fun hle e he => by
      injection he with he3
      rw [← he3]
      exact h2 hle e2 rfl⟩
  | (Except.ok (bytes, inferred), st2) =>
    rw [hb] at h1
    simp only [hb]
    match hsel : applySelector ch.selector (ch.contentType <|> inferred) bytes with
    | Except.error e2 =>
      simp only [hsel]
      exact ⟨h1, fun _ e he => by
        injection he with he3
        rw [← he3]
        exact applySelector_noRL _ _ _ e2 hsel⟩
    | Except.ok txt =>
      simp only [hsel]
      exact ⟨h1, fun _ e he => Except.noConfusion he⟩


theorem renderFieldWith_ok (kr : KeyRenderer) (lo : Nat) (hkr : KrOK kr lo)
    (ctx : TemplateContext) (id : String) (st : RenderState) (hlo : lo ≤ st.count) :
    st.count ≤ (renderFieldWith kr ctx id st).2.count ∧
      ((renderFieldWith kr ctx id st).2.count ≤ RECURSION_LIMIT →
        chunkHasRecLimit (renderFieldWith kr ctx id st).1 = false) := by
  unfold renderFieldWith
  match hov : lookupOverride ctx id with
  | some v =>
    simp only [hov]
    match hp : Template.parse v with
    | some t =>
      simp only [hp]
      obtain ⟨h1, h2⟩ := renderNestedWith_ok kr lo hkr t st hlo
      match hn : renderNestedWith kr t st with
      | (Except.ok s, st2) =>
        rw [hn] at h1
        simp only [hn]
        exact ⟨h1, fun _ => rfl⟩
      | (Except.error e, st2) =>
        rw [hn] at h1 h2
        simp only [hn]
        exact ⟨h1, fun hle => h2 hle e rfl⟩
    | Option.none =>
      simp only [hp]
      exact ⟨Nat.le_refl _, fun _ => rfl⟩
  | Option.none =>
    simp only [hov]
    match hsel : ctx.selectedProfile with
    | Option.none =>
      simp only [hsel]
      exact ⟨Nat.le_refl _, fun _ => rfl⟩
    | some pid =>
      simp only [hsel]
      match hfind : ctx.collection.profiles.find? (fun p => p.id == pid) with
      | Option.none =>
        simp only [hfind]
        exact ⟨Nat.le_refl _, fun _ => rfl⟩
      | some p =>
        simp only [hfind]
        match hfield : (p.data.find? (fun q => q.1 == id)).map Prod.snd with
        | Option.none =>
          simp only [hfield]
          exact ⟨Nat.le_refl _, fun _ => rfl⟩
        | some t =>
          simp only [hfield]
          obtain ⟨h1, h2⟩ := renderNestedWith_ok kr lo hkr t st hlo
          match hn : renderNestedWith kr t st with
          | (Except.ok s, st2) =>
            rw [hn] at h1
            simp only [hn]
            exact ⟨h1, fun _ => rfl⟩
          | (Except.error e, st2) =>
            rw [hn] at h1 h2
            simp only [hn]
            exact ⟨h1, fun hle => h2 hle e rfl⟩

theorem dispatchKey_ok (kr : KeyRenderer) (lo : Nat) (hkr : KrOK kr lo)
    (ctx : TemplateContext) (k : TemplateKey) (st : RenderState) (hlo : lo ≤ st.count) :
    st.count ≤ (dispatchKey kr ctx k st).2.count ∧
      ((dispatchKey kr ctx k st).2.count ≤ RECURSION_LIMIT →
        chunkHasRecLimit (dispatchKey kr ctx k st).1 = false) := by
  match k with
  | TemplateKey.field id => exact renderFieldWith_ok kr lo hkr ctx id st hlo
  | TemplateKey.chain id =>
    simp only [dispatchKey]
    match hov : lookupOverride ctx (String.mk chainsDot ++ id) with
    | some v =>
      simp only [hov]
      exact ⟨Nat.le_refl _, fun _ => rfl⟩
    | Option.none =>
      simp only [hov]
      match hfind : ctx.collection.chains.find? (fun c => c.id == id) with
      | Option.none =>
        simp only [hfind]
        exact ⟨Nat.le_refl _, fun _ => rfl⟩
      | some ch =>
        simp only [hfind]
        obtain ⟨h1, h2⟩ := chainEngineWith_ok kr lo hkr ctx ch st hlo
        match heng : chainEngineWith kr ctx ch st with
        | (Except.ok s, st2) =>
          rw [heng] at h1
          simp only [heng]
          exact ⟨h1, fun _ => rfl⟩
        | (Except.error e, st2) =>
          rw [heng] at h1 h2
          simp only [heng]
          exact ⟨h1, fun hle => h2 hle e rfl⟩
  | TemplateKey.environment id =>
    simp only [dispatchKey]
    match hov : lookupOverride ctx (String.mk envDot ++ id) with
    | some v =>
      simp only [hov]
      exact ⟨Nat.le_refl _, fun _ => rfl⟩
    | Option.none =>
      simp only [hov]
      match henv : ctx.env id with
      | EnvValue.present s =>
        simp only [henv]
        exact ⟨Nat.le_refl _, fun _ => rfl⟩
      | EnvValue.absent =>
        simp only [henv]
        exact ⟨Nat.le_refl _, fun _ => rfl⟩
      | EnvValue.notUnicode =>
        simp only [henv]
        exact ⟨Nat.le_refl _, fun _ => rfl⟩

/-- The key renderer at a given fuel satisfies the recursion-guard
invariant from any state whose counter pays for the missing fuel. -/
theorem renderKeyFuel_KrOK (ctx : TemplateContext) :
    ∀ fuel : Nat,
      KrOK (fun k st => renderKeyFuel ctx fuel k st) (RECURSION_LIMIT + 1 - fuel) := by
  intro fuel
  induction fuel with
  | zero =>
    intro k st hlo
    simp only [Nat.sub_zero] at hlo
    refine ⟨?_, ?_⟩
    · simp [renderKeyFuel, RenderState.incr]
    · intro hle
      exfalso
      simp [renderKeyFuel, RenderState.incr] at hle
      omega
  | succ fuel ih =>
    intro k st hlo
    simp only []
    by_cases hcount : RECURSION_LIMIT < st.count + 1
    · rw [renderKeyFuel]
      rw [if_pos (by simp [RenderState.incr]; omega)]
      refine ⟨by simp [RenderState.incr], fun hle => ?_⟩
      exfalso
      simp [RenderState.incr] at hle
      omega
    · rw [renderKeyFuel]
      rw [if_neg (by simp [RenderState.incr]; omega)]
      obtain ⟨h1, h2⟩ := dispatchKey_ok (fun k2 s2 => renderKeyFuel ctx fuel k2 s2)
        (RECURSION_LIMIT + 1 - fuel) ih ctx k st.incr
        (by simp [RenderState.incr]; omega)
      refine ⟨?_, h2⟩
      have : st.count < st.incr.count := by simp [RenderState.incr]
      exact Nat.lt_of_lt_of_le this h1

theorem renderFieldWith_ne_bare (kr : KeyRenderer) (ctx : TemplateContext)
    (id : String) (st : RenderState) :
    (renderFieldWith kr ctx id st).1 ≠ TemplateChunk.error TemplateError.recursionLimit := by
  unfold renderFieldWith
  repeat' split
  all_goals simp

theorem dispatchKey_ne_bare (kr : KeyRenderer) (ctx : TemplateContext)
    (k : TemplateKey) (st : RenderState) :
    (dispatchKey kr ctx k st).1 ≠ TemplateChunk.error TemplateError.recursionLimit := by
  match k with
  | TemplateKey.field id => exact renderFieldWith_ne_bare kr ctx id st
  | TemplateKey.chain id =>
    simp only [dispatchKey]
    repeat' split
    all_goals simp
  | TemplateKey.environment id =>
    simp only [dispatchKey]
    repeat' split
    all_goals simp


/-- Claim C1: the recursion guard is exact. (i) Expanding a key with the
top-level renderer fails with RecursionLimit exactly when the expansion
counter has already reached RECURSION_LIMIT = 10 before this expansion,
i.e. when the cumulative number of key expansions in the render tree
would exceed the limit; once the counter is at the limit every further
key expansion emits Error(RecursionLimit). (ii) A render that starts
from a context whose recursion counter is 0 and whose total
key-expansion count stays at or below the limit never produces a
RecursionLimit error anywhere in its output, including nested inside
FieldNested or Chain errors. -/
theorem c1_recursion_guard :
    (∀ (ctx : TemplateContext) (k : TemplateKey) (st : RenderState),
      (topKeyRenderer ctx k st).1 = TemplateChunk.error TemplateError.recursionLimit ↔
        RECURSION_LIMIT ≤ st.count) ∧
    (∀ (t : Template) (ctx : TemplateContext), ctx.recursionCount = 0 →
      (renderChunksState t ctx).2.count ≤ RECURSION_LIMIT →
      ∀ c ∈ t.renderChunks ctx, chunkHasRecLimit c = false) := by
  constructor
  · intro ctx k st
    constructor
    · intro h
      by_contra hge
      push_neg at hge
      have hstep := renderKeyFuel_step ctx RECURSION_LIMIT k st hge
      rw [show topKeyRenderer ctx k st
            = renderKeyFuel ctx (RECURSION_LIMIT + 1) k st from rfl, hstep] at h
      exact dispatchKey_ne_bare (fun k2 s2 => renderKeyFuel ctx RECURSION_LIMIT k2 s2)
        ctx k st.incr h
    · intro h
      rw [show topKeyRenderer ctx k st
            = renderKeyFuel ctx (RECURSION_LIMIT + 1) k st from rfl,
          renderKeyFuel_limit ctx RECURSION_LIMIT k st h]
  · intro t ctx h0 hle c hc
    have hkr : KrOK (topKeyRenderer ctx) 0 := by
      have hk := renderKeyFuel_KrOK ctx (RECURSION_LIMIT + 1)
      simpa [topKeyRenderer] using hk
    exact (renderChunksWith_ok (topKeyRenderer ctx) 0 hkr t.chunks (initState ctx)
      (Nat.zero_le _)).2 hle c hc

/-- Witness for C1: at a state whose counter is already 10 the key
expansion fails with RecursionLimit, and in a 1-expansion render (final
counter 1) the output chunk contains no RecursionLimit error. -/
theorem c1_recursion_guard_witness :
    (topKeyRenderer baseContext (TemplateKey.field "f")
        (RenderState.mk 10 baseContext.database [])).1 =
      TemplateChunk.error TemplateError.recursionLimit ∧
    chunkHasRecLimit (TemplateChunk.rendered "pv" false) = false := by
  refine ⟨?_, ?_⟩
  · exact (c1_recursion_guard.1 baseContext (TemplateKey.field "f")
      (RenderState.mk 10 baseContext.database [])).mpr (by decide)
  · exact c1_recursion_guard.2
      ⟨[TemplateInputChunk.key (TemplateKey.field "g")]⟩ c3ctx rfl (by decide)
      (TemplateChunk.rendered "pv" false) (by decide)

end Slumber
